import Mathlib

/-!
Verification of the delivery-route optimizer core against its design
specification.

The development shallowly embeds the TypeScript sources:

* `src/utils/tsp.ts` — nearest-neighbor construction, 2-opt refinement,
  `solveTSP` (section `Tsp`);
* the route-optimization hook (`optimizeRoute`, `getDistanceMatrix`
  orchestration) — input validation and ordering logic (section `Optimizer`);
* the geocode cache (`useGeocode.ts`: `getCache`/`setCache` and the cache
  probes of `geocodeAddress`/`reverseGeocode`) (section `Geocode`);
* the navigation engine hook (`useNavigation`: `startNavigation`, the GPS
  effect, `markDelivered`, `skipStop`, `findNextPendingStop`,
  `extractAllSteps`, `extractLegSteps`) (section `Nav`).

Modelling conventions:

* JavaScript numbers holding travel durations are non-negative integers or
  `Infinity` in this code base, embedded as `WithTop Nat`.
* JavaScript numbers holding GPS coordinates, speeds and distances are
  embedded as `ℚ` (exact rationals standing in for IEEE doubles; none of the
  verified properties depends on rounding of doubles).
* `x || y` on numbers (resp. strings) is embedded as `jsOrQ` (resp. `jsOrS`):
  the left operand unless it is falsy (`0` resp. `""`).
* `Math.round` is embedded as `jsRound q = ⌊q + 1/2⌋`, `Math.floor` as `⌊·⌋`.
* The trigonometric haversine formula and the DOM-based `stripHTML` are kept
  abstract: every theorem quantifies over an arbitrary distance function
  `hav` and an arbitrary string transformer `strip`, which is exactly how the
  navigation logic consumes them.
-/

namespace DelRoute

/-! ## Tsp — shallow embedding of `src/utils/tsp.ts`

A cost matrix is embedded as its dimension `n` together with a total function
`M : ℕ → ℕ → ℕ∞`; the TypeScript code only ever reads `M i j` for
`i, j < n`.  `⊤` is JavaScript `Infinity`.  Note `Infinity < Infinity` is
false in JavaScript, matching `¬ (⊤ < ⊤)` here. -/

abbrev Cost := WithTop Nat

/-- Inner scan of `nearestNeighbor`'s while-loop (tsp.ts lines 21–29): fold
over `i = 0 .. n-1`, keeping the lowest-cost unvisited index seen so far.
The accumulator is `(nearest, nearestDist)`, starting at `(-1, Infinity)`,
with `-1` embedded as `none`.  The JavaScript `Set` named `visited` always
holds exactly the members of `route`, so membership is tested on `route`. -/
def nnScan (M : ℕ → ℕ → Cost) (n current : ℕ) (route : List ℕ) :
    Option ℕ × Cost :=
  (List.range n).foldl
    (fun acc i =>
      if i ∉ route ∧ M current i < acc.2 then (some i, M current i) else acc)
    (none, ⊤)

/-- The while-loop of `nearestNeighbor` (tsp.ts lines 20–35).  The loop runs
while `visited.size < n`; each iteration grows `route` by one element, so
`n` units of fuel always reach the loop's own exit condition.  A scan that
finds no candidate (`nearest === -1`) breaks out of the loop. -/
def nnLoop (M : ℕ → ℕ → Cost) (n : ℕ) : ℕ → List ℕ → ℕ → List ℕ
  | 0, route, _ => route
  | fuel + 1, route, current =>
    if route.length < n then
      match (nnScan M n current route).1 with
      | none => route
      | some nearest => nnLoop M n fuel (route ++ [nearest]) nearest
    else route

/-- Embedding of `nearestNeighbor` (tsp.ts lines 11–38). -/
def nearestNeighbor (n : ℕ) (M : ℕ → ℕ → Cost) : List ℕ :=
  if n ≤ 1 then [0]
  else if n = 2 then [0, 1]
  else nnLoop M n n [0] 0

/-- Embedding of `routeDistance` (tsp.ts lines 43–49): sum of the matrix entries along
consecutive pairs of the route. -/
def routeDistance (route : List ℕ) (M : ℕ → ℕ → Cost) : Cost :=
  (route.zip route.tail).foldl (fun total p => total + M p.1 p.2) 0

/-- Segment reversal of `twoOpt` (tsp.ts lines 67–71):
`[...slice(0,i), ...slice(i,j+1).reverse(), ...slice(j+1)]`. -/
def reverseSegment (route : List ℕ) (i j : ℕ) : List ℕ :=
  route.take i ++ ((route.drop i).take (j + 1 - i)).reverse ++ route.drop (j + 1)

/-- The `(i, j)` iteration space of `twoOpt`'s nested for-loops
(tsp.ts lines 64–65): `1 ≤ i < len - 1`, `i + 1 ≤ j < len`. -/
def twoOptPairs (len : ℕ) : List (ℕ × ℕ) :=
  (List.range' 1 (len - 2)).flatMap fun i =>
    (List.range' (i + 1) (len - (i + 1))).map fun j => (i, j)

/-- One full pass of `twoOpt`'s nested for-loops over a given pair list.
The state is `(improved, bestDistance, foundImprovement)`; an improving
reversal is committed immediately (the splice) and scanning continues. -/
def twoOptPass (M : ℕ → ℕ → Cost) (pairs : List (ℕ × ℕ))
    (st : List ℕ × Cost × Bool) : List ℕ × Cost × Bool :=
  pairs.foldl
    (fun st p =>
      let newRoute := reverseSegment st.1 p.1 p.2
      let newDistance := routeDistance newRoute M
      if newDistance < st.2.1 then (newRoute, newDistance, true) else st)
    st

/-- The while-loop of `twoOpt` (tsp.ts lines 60–81): repeat full passes until
a pass finds no improvement.  `routeDistance` strictly decreases at every
committed reversal and ranges over costs of permutations of the route, so the
number of improving passes is below `route.length !`; the fuel
`route.length ! + 1` therefore always reaches quiescence. -/
def twoOptLoop (M : ℕ → ℕ → Cost) : ℕ → List ℕ → Cost → List ℕ
  | 0, route, _ => route
  | fuel + 1, route, best =>
    match twoOptPass M (twoOptPairs route.length) (route, best, false) with
    | (route', best', found) =>
      if found then twoOptLoop M fuel route' best' else route'

/-- Embedding of `twoOpt` (tsp.ts lines 55–84). -/
def twoOpt (route : List ℕ) (M : ℕ → ℕ → Cost) : List ℕ :=
  twoOptLoop M (route.length.factorial + 1) route (routeDistance route M)

/-- Embedding of `solveTSP` (tsp.ts lines 91–103). -/
def solveTSP (n : ℕ) (M : ℕ → ℕ → Cost) : List ℕ :=
  if n ≤ 2 then List.range n
  else twoOpt (nearestNeighbor n M) M

/-- The all-unreachable 3×3 matrix: zero diagonal, `Infinity` elsewhere. -/
def mInf : ℕ → ℕ → Cost := fun i j => if i = j then 0 else ⊤

/-- The spec's worked 3-stop example matrix `[[0,10,15],[10,0,20],[15,20,0]]`,
extended by zeros outside its 3×3 support. -/
def mTri : ℕ → ℕ → Cost := fun i j =>
  if i = 0 ∧ j = 1 then 10 else if i = 0 ∧ j = 2 then 15
  else if i = 1 ∧ j = 0 then 10 else if i = 1 ∧ j = 2 then 20
  else if i = 2 ∧ j = 0 then 15 else if i = 2 ∧ j = 1 then 20
  else 0

example : solveTSP 3 mTri = [0, 1, 2] := by decide
example : solveTSP 3 mInf = [0] := by decide
example : nearestNeighbor 3 mInf = [0] := by decide

/-! ### Structural lemmas about the 2-opt pass -/

/-- Splitting identity behind `reverseSegment`: for `i ≤ j + 1` the three
slices reassemble the route once the middle reversal is undone. -/
lemma reverseSegment_perm (route : List ℕ) {i j : ℕ} (hij : i ≤ j + 1) :
    (reverseSegment route i j).Perm route := by
  have h1 : (route.drop i).drop (j + 1 - i) = route.drop (j + 1) := by
    rw [List.drop_drop]
    congr 1
    omega
  have hsplit :
      route.take i ++ ((route.drop i).take (j + 1 - i) ++ route.drop (j + 1)) = route := by
    rw [← h1, List.take_append_drop, List.take_append_drop]
  have hperm :
      (reverseSegment route i j).Perm
        (route.take i ++ ((route.drop i).take (j + 1 - i) ++ route.drop (j + 1))) := by
    rw [reverseSegment, List.append_assoc]
    exact ((List.reverse_perm _).append_right _).append_left _
  rw [hsplit] at hperm
  exact hperm

/-- With `1 ≤ i` the reversal never touches position 0. -/
lemma reverseSegment_head? (route : List ℕ) {i : ℕ} (j : ℕ) (hi : 1 ≤ i) :
    (reverseSegment route i j).head? = route.head? := by
  cases route with
  | nil => simp [reverseSegment]
  | cons a t =>
    obtain ⟨i', rfl⟩ : ∃ i', i = i' + 1 := ⟨i - 1, by omega⟩
    simp [reverseSegment]

/-- Every pair produced by the nested for-loops satisfies `1 ≤ i < j`. -/
lemma twoOptPairs_mem {len : ℕ} {p : ℕ × ℕ} (hp : p ∈ twoOptPairs len) :
    1 ≤ p.1 ∧ p.1 < p.2 := by
  rw [twoOptPairs, List.mem_flatMap] at hp
  obtain ⟨i, hi, hp⟩ := hp
  rw [List.mem_map] at hp
  obtain ⟨j, hj, rfl⟩ := hp
  rw [List.mem_range'_1] at hi hj
  exact ⟨hi.1, by omega⟩

/-- A 2-opt pass keeps the route a permutation of the start route, keeps the
head fixed, keeps the recorded best distance equal to the route's distance,
and never increases it. -/
lemma twoOptPass_cons (M : ℕ → ℕ → Cost) (p : ℕ × ℕ) (rest : List (ℕ × ℕ))
    (st : List ℕ × Cost × Bool) :
    twoOptPass M (p :: rest) st =
      twoOptPass M rest
        (if routeDistance (reverseSegment st.1 p.1 p.2) M < st.2.1 then
          (reverseSegment st.1 p.1 p.2, routeDistance (reverseSegment st.1 p.1 p.2) M, true)
        else st) := rfl

lemma twoOptPass_invariant (M : ℕ → ℕ → Cost) (pairs : List (ℕ × ℕ))
    (hp : ∀ p ∈ pairs, 1 ≤ p.1 ∧ p.1 < p.2)
    (st : List ℕ × Cost × Bool) (hbest : st.2.1 = routeDistance st.1 M) :
    (twoOptPass M pairs st).2.1 = routeDistance (twoOptPass M pairs st).1 M ∧
    (twoOptPass M pairs st).2.1 ≤ st.2.1 ∧
    (twoOptPass M pairs st).1.Perm st.1 ∧
    (twoOptPass M pairs st).1.head? = st.1.head? := by
  induction pairs generalizing st with
  | nil => exact ⟨hbest, le_refl _, List.Perm.refl _, rfl⟩
  | cons p rest ih =>
    have hp1 := hp p (List.mem_cons_self p rest)
    have hrest : ∀ q ∈ rest, 1 ≤ q.1 ∧ q.1 < q.2 :=
      fun q hq => hp q (List.mem_cons_of_mem p hq)
    rw [twoOptPass_cons]
    by_cases h : routeDistance (reverseSegment st.1 p.1 p.2) M < st.2.1
    · rw [if_pos h]
      have := ih hrest
        (reverseSegment st.1 p.1 p.2, routeDistance (reverseSegment st.1 p.1 p.2) M, true) rfl
      refine ⟨this.1, le_trans this.2.1 (le_of_lt h), ?_, ?_⟩
      · exact this.2.2.1.trans (reverseSegment_perm st.1 (by omega))
      · rw [this.2.2.2]
        exact reverseSegment_head? st.1 p.2 hp1.1
    · rw [if_neg h]
      exact ih hrest st hbest

/-- The 2-opt while-loop never increases the route's distance, and keeps the
route a permutation of its input with the head fixed. -/
lemma twoOptLoop_invariant (M : ℕ → ℕ → Cost) (fuel : ℕ) (route : List ℕ)
    (best : Cost) (hbest : best = routeDistance route M) :
    routeDistance (twoOptLoop M fuel route best) M ≤ best ∧
    (twoOptLoop M fuel route best).Perm route ∧
    (twoOptLoop M fuel route best).head? = route.head? := by
  induction fuel generalizing route best with
  | zero => exact ⟨le_of_eq hbest.symm, List.Perm.refl _, rfl⟩
  | succ fuel ih =>
    have hpass := twoOptPass_invariant M (twoOptPairs route.length)
      (fun p hp => twoOptPairs_mem hp) (route, best, false) hbest
    rcases hsplit : twoOptPass M (twoOptPairs route.length) (route, best, false) with
      ⟨r', b', found⟩
    rw [twoOptLoop, hsplit]
    rw [hsplit] at hpass
    obtain ⟨hb', hle, hperm, hhead⟩ := hpass
    cases found with
    | false =>
      simp only [Bool.false_eq_true, if_false]
      exact ⟨le_trans (le_of_eq hb'.symm) hle, hperm, hhead⟩
    | true =>
      have := ih r' b' hb'
      simp only [if_true]
      exact ⟨le_trans this.1 hle, this.2.1.trans hperm, this.2.2.trans hhead⟩

/-- The function `twoOpt` never increases `routeDistance`. -/
lemma twoOpt_distance_le (route : List ℕ) (M : ℕ → ℕ → Cost) :
    routeDistance (twoOpt route M) M ≤ routeDistance route M :=
  (twoOptLoop_invariant M _ route _ rfl).1

/-- The function `twoOpt` returns a permutation of its input route. -/
lemma twoOpt_perm (route : List ℕ) (M : ℕ → ℕ → Cost) :
    (twoOpt route M).Perm route :=
  (twoOptLoop_invariant M _ route _ rfl).2.1

/-- The function `twoOpt` keeps the origin at the front. -/
lemma twoOpt_head? (route : List ℕ) (M : ℕ → ℕ → Cost) :
    (twoOpt route M).head? = route.head? :=
  (twoOptLoop_invariant M _ route _ rfl).2.2

/-! ### Structural lemmas about the nearest-neighbor construction -/

/-- Once the scan's accumulator holds a candidate it never returns to `-1`. -/
lemma nnScan_absorb (M : ℕ → ℕ → Cost) (current : ℕ) (route : List ℕ) :
    ∀ (l : List ℕ) (acc : Option ℕ × Cost) (j : ℕ), acc.1 = some j →
      ∃ j', (l.foldl
        (fun acc i =>
          if i ∉ route ∧ M current i < acc.2 then (some i, M current i) else acc)
        acc).1 = some j' := by
  intro l
  induction l with
  | nil => exact fun acc j h => ⟨j, h⟩
  | cons i l ih =>
    intro acc j h
    rw [List.foldl_cons]
    by_cases hc : i ∉ route ∧ M current i < acc.2
    · rw [if_pos hc]
      exact ih _ i rfl
    · rw [if_neg hc]
      exact ih _ j h

/-- A successful scan returns an in-range unvisited index. -/
lemma nnScan_some {M : ℕ → ℕ → Cost} {n current : ℕ} {route : List ℕ} {j : ℕ}
    (h : (nnScan M n current route).1 = some j) : j < n ∧ j ∉ route := by
  rw [nnScan] at h
  have main : ∀ (l : List ℕ) (acc : Option ℕ × Cost),
      (∀ i ∈ l, i < n) → (∀ j', acc.1 = some j' → j' < n ∧ j' ∉ route) →
      ∀ j', (l.foldl
        (fun acc i =>
          if i ∉ route ∧ M current i < acc.2 then (some i, M current i) else acc)
        acc).1 = some j' → j' < n ∧ j' ∉ route := by
    intro l
    induction l with
    | nil => exact fun acc _ hacc j' h' => hacc j' h'
    | cons i l ih =>
      intro acc hl hacc j' h'
      rw [List.foldl_cons] at h'
      by_cases hc : i ∉ route ∧ M current i < acc.2
      · rw [if_pos hc] at h'
        refine ih _ (fun x hx => hl x (List.mem_cons_of_mem i hx)) ?_ j' h'
        intro j'' hj''
        cases hj''
        exact ⟨hl i (List.mem_cons_self i l), hc.1⟩
      · rw [if_neg hc] at h'
        exact ih _ (fun x hx => hl x (List.mem_cons_of_mem i hx)) hacc j' h'
  exact main (List.range n) (none, ⊤) (fun i hi => List.mem_range.mp hi)
    (fun j' h' => by cases h') j h

/-- When every cost out of `current` is finite and an unvisited in-range index
remains, the scan finds a candidate (the `nearest === -1` break cannot
fire). -/
lemma nnScan_ne_none {M : ℕ → ℕ → Cost} {n current : ℕ} {route : List ℕ}
    (hfin : ∀ i, i < n → M current i ≠ ⊤)
    (hex : ∃ i, i < n ∧ i ∉ route) :
    ∃ j, (nnScan M n current route).1 = some j := by
  rw [nnScan]
  obtain ⟨i₀, hi₀n, hi₀r⟩ := hex
  have main : ∀ (l : List ℕ),
      (∀ i ∈ l, i < n) → (∃ i ∈ l, i ∉ route) →
      ∃ j, (l.foldl
        (fun acc i =>
          if i ∉ route ∧ M current i < acc.2 then (some i, M current i) else acc)
        ((none : Option ℕ), (⊤ : Cost))).1 = some j := by
    intro l
    induction l with
    | nil => rintro _ ⟨i, hi, _⟩; cases hi
    | cons i l ih =>
      rintro hl ⟨i₁, hi₁, hi₁r⟩
      rw [List.foldl_cons]
      by_cases hc : i ∉ route ∧ M current i < (⊤ : Cost)
      · rw [if_pos hc]
        exact nnScan_absorb M current route l _ i rfl
      · rw [if_neg hc]
        have hi₁l : i₁ ∈ l := by
          rcases List.mem_cons.mp hi₁ with rfl | h
          · exfalso
            exact hc ⟨hi₁r, WithTop.lt_top_iff_ne_top.mpr (hfin i₁ (hl i₁ hi₁))⟩
          · exact h
        exact ih (fun x hx => hl x (List.mem_cons_of_mem i hx)) ⟨i₁, hi₁l, hi₁r⟩
  exact main (List.range n) (fun i hi => List.mem_range.mp hi)
    ⟨i₀, List.mem_range.mpr hi₀n, hi₀r⟩

/-- A nodup route over `[0, n)` cannot be longer than `n`. -/
lemma nodup_lt_length_le {n : ℕ} {route : List ℕ} (hnd : route.Nodup)
    (hmem : ∀ x ∈ route, x < n) : route.length ≤ n := by
  have h := (hnd.subperm (fun x hx => List.mem_range.mpr (hmem x hx))).length_le
  rwa [List.length_range] at h

/-- Pigeonhole: a nodup route over `[0, n)` shorter than `n` misses some
index. -/
lemma exists_unvisited {n : ℕ} {route : List ℕ} (hnd : route.Nodup)
    (hmem : ∀ x ∈ route, x < n) (hlen : route.length < n) :
    ∃ i, i < n ∧ i ∉ route := by
  by_contra h
  push_neg at h
  have hsub : List.range n ⊆ route := fun i hi => h i (List.mem_range.mp hi)
  have hle := ((List.nodup_range n).subperm hsub).length_le
  rw [List.length_range] at hle
  omega

/-- The construction loop only appends fresh in-range indices. -/
lemma nnLoop_invariant (M : ℕ → ℕ → Cost) (n : ℕ) :
    ∀ (fuel : ℕ) (route : List ℕ) (current : ℕ), route.Nodup →
      (∀ x ∈ route, x < n) →
      (nnLoop M n fuel route current).Nodup ∧
      (∀ x ∈ nnLoop M n fuel route current, x < n) ∧
      ∃ ext, nnLoop M n fuel route current = route ++ ext := by
  intro fuel
  induction fuel with
  | zero => exact fun route current hnd hmem => ⟨hnd, hmem, [], by simp [nnLoop]⟩
  | succ fuel ih =>
    intro route current hnd hmem
    rw [nnLoop]
    by_cases hlen : route.length < n
    · rw [if_pos hlen]
      rcases hscan : (nnScan M n current route).1 with _ | j
      · exact ⟨hnd, hmem, [], by simp⟩
      · obtain ⟨hjn, hjr⟩ := nnScan_some hscan
        have hnd' : (route ++ [j]).Nodup := by
          rw [List.nodup_append]
          exact ⟨hnd, List.nodup_singleton j, by simpa using hjr⟩
        have hmem' : ∀ x ∈ route ++ [j], x < n := by
          intro x hx
          rcases List.mem_append.mp hx with h | h
          · exact hmem x h
          · rw [List.mem_singleton.mp h]; exact hjn
        obtain ⟨hnd'', hmem'', ext, hext⟩ := ih (route ++ [j]) j hnd' hmem'
        refine ⟨hnd'', hmem'', [j] ++ ext, ?_⟩
        show nnLoop M n fuel (route ++ [j]) j = route ++ ([j] ++ ext)
        rw [hext, List.append_assoc]
    · rw [if_neg hlen]
      exact ⟨hnd, hmem, [], by simp⟩

/-- With a totally finite matrix and enough fuel the loop visits everything:
the JavaScript loop exit `visited.size < n` is the only way out. -/
lemma nnLoop_length (M : ℕ → ℕ → Cost) (n : ℕ)
    (hfin : ∀ i j, i < n → j < n → M i j ≠ ⊤) :
    ∀ (fuel : ℕ) (route : List ℕ) (current : ℕ), route.Nodup →
      (∀ x ∈ route, x < n) → current < n → n ≤ fuel + route.length →
      (nnLoop M n fuel route current).length = n := by
  intro fuel
  induction fuel with
  | zero =>
    intro route current hnd hmem _ hfuel
    rw [nnLoop]
    exact le_antisymm (nodup_lt_length_le hnd hmem) (by simpa using hfuel)
  | succ fuel ih =>
    intro route current hnd hmem hcur hfuel
    rw [nnLoop]
    by_cases hlen : route.length < n
    · rw [if_pos hlen]
      obtain ⟨j, hscan⟩ := nnScan_ne_none (fun i hi => hfin current i hcur hi)
        (exists_unvisited hnd hmem hlen)
      rw [hscan]
      obtain ⟨hjn, hjr⟩ := nnScan_some hscan
      have hnd' : (route ++ [j]).Nodup := by
        rw [List.nodup_append]
        exact ⟨hnd, List.nodup_singleton j, by simpa using hjr⟩
      have hmem' : ∀ x ∈ route ++ [j], x < n := by
        intro x hx
        rcases List.mem_append.mp hx with h | h
        · exact hmem x h
        · rw [List.mem_singleton.mp h]; exact hjn
      refine ih (route ++ [j]) j hnd' hmem' hjn ?_
      rw [List.length_append, List.length_singleton]
      omega
    · rw [if_neg hlen]
      exact le_antisymm (nodup_lt_length_le hnd hmem) (by omega)

/-- On a totally finite matrix with `n > 2`, nearest-neighbor returns a
permutation of `0 .. n-1` starting at the origin. -/
lemma nearestNeighbor_spec {n : ℕ} (M : ℕ → ℕ → Cost) (h3 : 2 < n)
    (hfin : ∀ i j, i < n → j < n → M i j ≠ ⊤) :
    (nearestNeighbor n M).Perm (List.range n) ∧
    (nearestNeighbor n M).head? = some 0 := by
  have hbr : nearestNeighbor n M = nnLoop M n n [0] 0 := by
    rw [nearestNeighbor, if_neg (by omega), if_neg (by omega)]
  have h0nd : ([0] : List ℕ).Nodup := List.nodup_singleton 0
  have h0mem : ∀ x ∈ ([0] : List ℕ), x < n := by
    intro x hx
    rw [List.mem_singleton.mp hx]
    omega
  obtain ⟨hnd, hmem, ext, hext⟩ := nnLoop_invariant M n n [0] 0 h0nd h0mem
  have hlen := nnLoop_length M n hfin n [0] 0 h0nd h0mem (by omega) (by simp)
  constructor
  · rw [hbr]
    refine (hnd.subperm fun x hx => List.mem_range.mpr (hmem x hx)).perm_of_length_le ?_
    rw [List.length_range, hlen]
  · rw [hbr, hext]
    rfl

/-- Every index in a `solveTSP` result is in range (no finiteness needed). -/
lemma solveTSP_mem {n : ℕ} (M : ℕ → ℕ → Cost) :
    ∀ x ∈ solveTSP n M, x < n := by
  intro x hx
  rw [solveTSP] at hx
  by_cases h2 : n ≤ 2
  · rw [if_pos h2] at hx
    exact List.mem_range.mp hx
  · rw [if_neg h2] at hx
    have hx' : x ∈ nearestNeighbor n M := ((twoOpt_perm _ M).mem_iff).mp hx
    have hbr : nearestNeighbor n M = nnLoop M n n [0] 0 := by
      rw [nearestNeighbor, if_neg (by omega), if_neg (by omega)]
    rw [hbr] at hx'
    have h0mem : ∀ y ∈ ([0] : List ℕ), y < n := by
      intro y hy
      rw [List.mem_singleton.mp hy]
      omega
    exact (nnLoop_invariant M n n [0] 0 (List.nodup_singleton 0) h0mem).2.1 x hx'

/-! ## Optimizer — shallow embedding of the route-optimization hook

`optimizeRoute(startLocation, stops, endLocation)` first performs synchronous
input validation and point assembly (its throws happen before the
`await getDistanceMatrix(allPoints)` call), then — once the matrix is back —
chooses the visiting order.  Both pure stages are embedded below. -/

structure LatLng where
  lat : ℚ
  lng : ℚ
deriving DecidableEq

/-- Embedding of `DeliveryStop` from `src/types/index.ts` (`label` is unused by the
embedded logic and omitted). -/
structure DeliveryStop where
  id : String
  address : String
  location : Option LatLng
  orderNumber : Option String
deriving DecidableEq

/-- Synchronous validation/assembly prefix of `optimizeRoute` (lines 29–43):
filter out stops without a location, reject a missing start location and an
empty valid-stop list, and assemble `allPoints = [start, ...validStops]`
plus the end location when it has a coordinate.  Both `throw`s happen before
any external call. -/
def optimizeRouteValidate (startLocation : DeliveryStop) (stops : List DeliveryStop)
    (endLocation : Option DeliveryStop) : Except String (List DeliveryStop) :=
  if startLocation.location.isNone then Except.error "Start location must be set"
  else if (stops.filter (fun s => s.location.isSome)).length = 0 then
    Except.error "Add at least one delivery stop"
  else
    Except.ok (startLocation :: stops.filter (fun s => s.location.isSome) ++
      (match endLocation with
        | some e => if e.location.isSome then [e] else []
        | none => []))

/-- Order-selection step of `optimizeRoute` (lines 50–63) on `n` assembled
points.  When `hasEnd` is set, the TypeScript slices the matrix down to its
leading `(n-1) × (n-1)` block; since `solveTSP (n-1)` only ever reads entries
with both indices below `n - 1`, passing the whole matrix at dimension
`n - 1` is the same computation. -/
def optimizeRouteOrder (n : ℕ) (hasEnd : Bool) (M : ℕ → ℕ → Cost) : List ℕ :=
  if n ≤ 2 then List.range n
  else if hasEnd then solveTSP (n - 1) M ++ [n - 1]
  else solveTSP n M

/-- Start stop with a coordinate, for concrete runs. -/
def cStart : DeliveryStop := ⟨"start", "Depot", some ⟨0, 0⟩, none⟩

/-- A delivery stop whose geocoding failed: no coordinate. -/
def cNoLoc : DeliveryStop := ⟨"s1", "Unresolved address", none, some "1023"⟩

/-- A delivery stop with a coordinate. -/
def cOk : DeliveryStop := ⟨"s2", "Resolved address", some ⟨1, 1⟩, none⟩

/-! ## Claim theorems: TSP and optimizer -/

/-- C1 (counterexample): on the 3×3 matrix whose off-diagonal entries are all
`Infinity`, the nearest-neighbor scan finds no candidate (`Infinity <
Infinity` is false, so `nearest` stays `-1`), the loop breaks, and `solveTSP`
returns `[0]` — not a permutation of `0..2`; index 1 is missing from the
tour. -/
theorem claim_C1_counterexample :
    (nnScan mInf 3 0 [0]).1 = none ∧
    solveTSP 3 mInf = [0] ∧
    ¬ (solveTSP 3 mInf).Perm (List.range 3) ∧
    1 ∉ solveTSP 3 mInf := by decide

/-- C1 (amended): for every n×n cost matrix with n > 2 whose entries are all
finite, `solveTSP` returns an ordered permutation of the indices `0..n-1`
with index 0 first.  (When every remaining candidate is `+∞` the scan finds
no candidate and the construction loop breaks, so indices can be omitted —
see the counterexample.) -/
theorem claim_C1 (n : ℕ) (M : ℕ → ℕ → Cost) (h3 : 2 < n)
    (hfin : ∀ i < n, ∀ j < n, M i j ≠ ⊤) :
    (solveTSP n M).Perm (List.range n) ∧ (solveTSP n M).head? = some 0 := by
  have hnn := nearestNeighbor_spec M h3 (fun i j hi hj => hfin i hi j hj)
  have hs : solveTSP n M = twoOpt (nearestNeighbor n M) M := by
    rw [solveTSP, if_neg (by omega)]
  constructor
  · rw [hs]
    exact (twoOpt_perm _ M).trans hnn.1
  · rw [hs, twoOpt_head?]
    exact hnn.2

/-- C1 (witness): the amended theorem applied to the spec's worked 3-stop
example matrix. -/
theorem claim_C1_witness :
    (solveTSP 3 mTri).Perm (List.range 3) ∧ (solveTSP 3 mTri).head? = some 0 :=
  claim_C1 3 mTri (by decide) (by decide)


/-- C5: for every cost matrix and every starting route, the total cost of the
route returned by `twoOpt` is at most the total cost of the input route; in
particular (for `n > 2`, where `solveTSP` runs 2-opt on the nearest-neighbor
tour) the 2-opt output's total cost is at most nearest-neighbor's total
cost. -/
theorem claim_C5 :
    (∀ (M : ℕ → ℕ → Cost) (route : List ℕ),
      routeDistance (twoOpt route M) M ≤ routeDistance route M) ∧
    (∀ (n : ℕ) (M : ℕ → ℕ → Cost), 2 < n →
      routeDistance (solveTSP n M) M ≤ routeDistance (nearestNeighbor n M) M) := by
  refine ⟨fun M route => twoOpt_distance_le route M, fun n M h3 => ?_⟩
  rw [solveTSP, if_neg (by omega)]
  exact twoOpt_distance_le _ M

/-- C5 (witness): both conjuncts instantiated on the worked example matrix. -/
theorem claim_C5_witness :
    routeDistance (twoOpt [0, 2, 1] mTri) mTri ≤ routeDistance [0, 2, 1] mTri ∧
    routeDistance (solveTSP 3 mTri) mTri ≤ routeDistance (nearestNeighbor 3 mTri) mTri :=
  ⟨claim_C5.1 mTri [0, 2, 1], claim_C5.2 3 mTri (by decide)⟩

/-- C7: with a fixed end and more than 2 points, the optimizer solves the
sub-problem over indices `0..n-2` and appends `n-1`: the returned order is
exactly `solveTSP (n-1) ++ [n-1]`, the last original index is last, and it
does not occur anywhere before the last position. -/
theorem claim_C7 (n : ℕ) (M : ℕ → ℕ → Cost) (h3 : 2 < n) :
    optimizeRouteOrder n true M = solveTSP (n - 1) M ++ [n - 1] ∧
    (optimizeRouteOrder n true M).getLast? = some (n - 1) ∧
    (n - 1) ∉ (optimizeRouteOrder n true M).dropLast := by
  have heq : optimizeRouteOrder n true M = solveTSP (n - 1) M ++ [n - 1] := by
    rw [optimizeRouteOrder, if_neg (by omega)]
    rfl
  refine ⟨heq, ?_, ?_⟩
  · rw [heq]
    exact List.getLast?_concat _
  · rw [heq, List.dropLast_concat]
    intro hmem
    exact absurd (solveTSP_mem M (n - 1) hmem) (by omega)

/-- C7 (witness): a fixed-end run on 4 points over the worked example
matrix. -/
theorem claim_C7_witness :
    optimizeRouteOrder 4 true mTri = solveTSP 3 mTri ++ [3] ∧
    (optimizeRouteOrder 4 true mTri).getLast? = some 3 ∧
    3 ∉ (optimizeRouteOrder 4 true mTri).dropLast :=
  claim_C7 4 mTri (by decide)

/-- C3 (counterexample): a delivery stop without a coordinate does not make
the pipeline fail — it is silently dropped.  With a valid start, one
coordinate-less stop and one valid stop, validation succeeds and the
assembled point list omits the coordinate-less stop. -/
theorem claim_C3_counterexample :
    cNoLoc.location = none ∧
    optimizeRouteValidate cStart [cNoLoc, cOk] none = Except.ok [cStart, cOk] ∧
    cNoLoc ∉ [cStart, cOk] :=
  ⟨rfl, rfl, by decide⟩

/-- C3 (amended): coordinate-less delivery stops are silently filtered out
before the distance matrix is built, not rejected.  The pipeline fails
synchronously (before any external call) only when the start location lacks
a coordinate or when no delivery stop has a coordinate; on success the
assembled point list is `start :: validStops ++ [end?]` and every point in
it has a coordinate. -/
theorem claim_C3 :
    (∀ start stops endLoc, start.location = none →
      optimizeRouteValidate start stops endLoc = Except.error "Start location must be set") ∧
    (∀ start stops endLoc, start.location.isSome →
      stops.filter (fun s => s.location.isSome) = [] →
      optimizeRouteValidate start stops endLoc = Except.error "Add at least one delivery stop") ∧
    (∀ start stops endLoc pts, optimizeRouteValidate start stops endLoc = Except.ok pts →
      ∀ p ∈ pts, p.location.isSome) := by
  refine ⟨?_, ?_, ?_⟩
  · intro start stops endLoc h
    unfold optimizeRouteValidate
    rw [if_pos (by rw [h]; rfl)]
  · intro start stops endLoc hs hf
    unfold optimizeRouteValidate
    rw [if_neg (by rw [Option.isNone_iff_eq_none]; intro h; rw [h] at hs; cases hs),
      if_pos (by rw [hf]; rfl)]
  · intro start stops endLoc pts hok p hp
    unfold optimizeRouteValidate at hok
    by_cases h1 : start.location.isNone
    · rw [if_pos h1] at hok
      cases hok
    · rw [if_neg h1] at hok
      by_cases h2 : (stops.filter (fun s => s.location.isSome)).length = 0
      · rw [if_pos h2] at hok
        cases hok
      · rw [if_neg h2] at hok
        injection hok with hok
        subst hok
        rcases List.mem_cons.mp hp with rfl | hp
        · cases hsl : p.location with
          | none => exact absurd (by rw [Option.isNone_iff_eq_none]; exact hsl) h1
          | some v => rfl
        · rcases List.mem_append.mp hp with hp | hp
          · exact (List.mem_filter.mp hp).2
          · cases endLoc with
            | none => cases hp
            | some e =>
              have hp' : p ∈ (if e.location.isSome then [e] else []) := hp
              by_cases he : e.location.isSome
              · rw [if_pos he] at hp'
                rw [List.mem_singleton.mp hp']
                exact he
              · rw [if_neg he] at hp'
                cases hp'

/-- C3 (witness): the amended theorem exercised at concrete inputs — a
coordinate-less start is rejected, an all-coordinate-less stop list is
rejected, and every assembled point of the successful run has a
coordinate. -/
theorem claim_C3_witness :
    optimizeRouteValidate cNoLoc [cOk] none = Except.error "Start location must be set" ∧
    optimizeRouteValidate cStart [cNoLoc] none = Except.error "Add at least one delivery stop" ∧
    ∀ p ∈ [cStart, cOk], p.location.isSome :=
  ⟨claim_C3.1 cNoLoc [cOk] none rfl,
   claim_C3.2.1 cStart [cNoLoc] none rfl rfl,
   claim_C3.2.2 cStart [cNoLoc, cOk] none [cStart, cOk] rfl⟩

/-! ## Geocode — shallow embedding of `useGeocode.ts`

The cache is a JavaScript object `Record<string, CacheEntry>`: string keys
enumerate in insertion order, overwriting keeps a key's position, `delete`
keeps the order of the remaining keys — so the store is an insertion-ordered
association list.  Keys are pre-normalized by the caller and only ever
compared for equality, so the key type is kept abstract. -/

structure CacheEntry where
  address : String
  location : LatLng
  timestamp : ℤ

/-- Thirty days in milliseconds: `30 * 24 * 60 * 60 * 1000`. -/
def cacheTTLMs : ℤ := 30 * 24 * 60 * 60 * 1000

/-- Embedding of `cache[key] = entry`: overwrite in place when present, append when
fresh. -/
def cacheInsert {κ : Type} [DecidableEq κ] :
    List (κ × CacheEntry) → κ → CacheEntry → List (κ × CacheEntry)
  | [], k, e => [(k, e)]
  | (k', e') :: rest, k, e =>
    if k' = k then (k, e) :: rest else (k', e') :: cacheInsert rest k e

/-- Embedding of `setCache` (useGeocode.ts lines 26–40): write the entry; if the store then
holds more than 500 entries, sort the keys by entry timestamp
(`keys.sort((a, b) => cache[a].timestamp - cache[b].timestamp)`) and delete
the first 100. -/
def setCache {κ : Type} [DecidableEq κ] (store : List (κ × CacheEntry)) (k : κ)
    (e : CacheEntry) : List (κ × CacheEntry) :=
  let cache := cacheInsert store k e
  if 500 < cache.length then
    let doomed :=
      ((cache.mergeSort fun p q => decide (p.2.timestamp ≤ q.2.timestamp)).take 100).map
        Prod.fst
    cache.filter fun p => decide (p.1 ∉ doomed)
  else cache

/-- Key lookup `cache[cacheKey]`. -/
def cacheLookup {κ : Type} [DecidableEq κ] :
    List (κ × CacheEntry) → κ → Option CacheEntry
  | [], _ => none
  | (k', e) :: rest, k => if k' = k then some e else cacheLookup rest k

/-- Forward-geocode cache probe of `geocodeAddress` (lines 59–61): a stored
entry counts as a hit only while `now - entry.timestamp < 30 days`. -/
def forwardCacheHit {κ : Type} [DecidableEq κ] (store : List (κ × CacheEntry))
    (k : κ) (now : ℤ) : Option CacheEntry :=
  match cacheLookup store k with
  | some e => if now - e.timestamp < cacheTTLMs then some e else none
  | none => none

/-- Reverse-geocode cache probe of `reverseGeocode` (lines 92–94): a stored
entry is always a hit, with no TTL check. -/
def reverseCacheHit {κ : Type} [DecidableEq κ] (store : List (κ × CacheEntry))
    (k : κ) : Option CacheEntry :=
  cacheLookup store k

/-- Entry number `i` of the eviction run: distinct key `i`, timestamp `i`. -/
def c4Entry (i : ℕ) : CacheEntry := ⟨"", ⟨0, 0⟩, (i : ℤ)⟩

/-- The eviction run: `count` logical sets of distinct entries with strictly
increasing timestamps. -/
def c4Store : ℕ → List (ℕ × CacheEntry)
  | 0 => []
  | n + 1 => setCache (c4Store n) n (c4Entry n)

/-- The run's store segment holding keys `s, s+1, …, s+len-1`. -/
def c4Segment (s len : ℕ) : List (ℕ × CacheEntry) :=
  (List.range' s len).map fun i => (i, c4Entry i)

/-! ### Closed form of the eviction run -/

lemma cacheInsert_fresh {κ : Type} [DecidableEq κ]
    (store : List (κ × CacheEntry)) (k : κ) (e : CacheEntry)
    (h : ∀ p ∈ store, p.1 ≠ k) : cacheInsert store k e = store ++ [(k, e)] := by
  induction store with
  | nil => rfl
  | cons p rest ih =>
    rw [cacheInsert]
    rw [if_neg (h p (List.mem_cons_self p rest)), List.cons_append]
    congr 1
    exact ih fun q hq => h q (List.mem_cons_of_mem p hq)

lemma c4Segment_fresh (s len k : ℕ) (hk : s + len ≤ k) :
    ∀ p ∈ c4Segment s len, p.1 ≠ k := by
  intro p hp
  rw [c4Segment, List.mem_map] at hp
  obtain ⟨i, hi, rfl⟩ := hp
  rw [List.mem_range'_1] at hi
  show i ≠ k
  omega

lemma c4Segment_length (s len : ℕ) : (c4Segment s len).length = len := by
  rw [c4Segment, List.length_map, List.length_range']

lemma c4Segment_concat (s len : ℕ) :
    c4Segment s len ++ [(s + len, c4Entry (s + len))] = c4Segment s (len + 1) := by
  rw [c4Segment, c4Segment, List.range'_1_concat, List.map_append]
  rfl

lemma cacheLookup_segment (len : ℕ) :
    ∀ (s i : ℕ), cacheLookup (c4Segment s len) i =
      if s ≤ i ∧ i < s + len then some (c4Entry i) else none := by
  induction len with
  | zero =>
    intro s i
    rw [if_neg (by omega)]
    rfl
  | succ len ih =>
    intro s i
    have hcons : c4Segment s (len + 1) = (s, c4Entry s) :: c4Segment (s + 1) len := by
      rw [c4Segment, List.range'_succ]
      rfl
    rw [hcons, cacheLookup]
    by_cases hsi : s = i
    · subst hsi
      rw [if_pos rfl, if_pos (by omega)]
    · rw [if_neg hsi, ih (s + 1) i]
      by_cases hin : s + 1 ≤ i ∧ i < s + 1 + len
      · rw [if_pos hin, if_pos (by omega)]
      · rw [if_neg hin, if_neg (by omega)]

/-- Stage 1: the first 500 sets never evict. -/
lemma c4Store_le_500 : ∀ n, n ≤ 500 → c4Store n = c4Segment 0 n := by
  intro n
  induction n with
  | zero => intro _; rfl
  | succ n ih =>
    intro hn
    rw [c4Store, ih (by omega), setCache,
      cacheInsert_fresh _ _ _ (c4Segment_fresh 0 n n (by omega))]
    have hlen : (c4Segment 0 n ++ [(n, c4Entry n)]).length = n + 1 := by
      rw [List.length_append, c4Segment_length]
      rfl
    rw [if_neg (by rw [hlen]; omega)]
    have := c4Segment_concat 0 n
    rw [Nat.zero_add] at this
    rw [this]

/-- The run's store is always sorted by timestamp, so the eviction sort is
the identity. -/
lemma c4Segment_sorted (s len : ℕ) :
    List.Pairwise (fun p q : ℕ × CacheEntry =>
      decide (p.2.timestamp ≤ q.2.timestamp) = true) (c4Segment s len) := by
  rw [c4Segment, List.pairwise_map]
  refine (List.pairwise_lt_range' s len 1 (by omega)).imp ?_
  intro a b hab
  rw [decide_eq_true_eq]
  show (a : ℤ) ≤ (b : ℤ)
  exact_mod_cast le_of_lt hab

/-- Stage 2: the 501st set overflows and evicts the 100 oldest entries. -/
lemma c4Store_501 : c4Store 501 = c4Segment 100 401 := by
  have h500 := c4Store_le_500 500 (le_refl 500)
  rw [show (501 : ℕ) = 500 + 1 from rfl, c4Store, h500, setCache,
    cacheInsert_fresh _ _ _ (c4Segment_fresh 0 500 500 (by omega))]
  have hconcat := c4Segment_concat 0 500
  rw [Nat.zero_add] at hconcat
  rw [hconcat]
  have hlen : (c4Segment 0 501).length = 501 := c4Segment_length 0 501
  rw [if_pos (by rw [hlen]; omega)]
  rw [List.mergeSort_of_sorted (c4Segment_sorted 0 501)]
  have hsplit : c4Segment 0 100 ++ c4Segment 100 401 = c4Segment 0 501 := by
    rw [c4Segment, c4Segment, c4Segment, ← List.map_append]
    congr 1
  rw [← hsplit, List.take_left' (c4Segment_length 0 100)]
  have hdoomed : (c4Segment 0 100).map Prod.fst = List.range' 0 100 := by
    rw [c4Segment, List.map_map]
    exact List.map_id _
  rw [hdoomed, List.filter_append]
  have hfilter1 : (c4Segment 0 100).filter
      (fun p => decide (p.1 ∉ List.range' 0 100)) = [] := by
    rw [List.filter_eq_nil_iff]
    intro p hp
    rw [c4Segment, List.mem_map] at hp
    obtain ⟨i, hi, rfl⟩ := hp
    simp only [decide_eq_true_eq, not_not]
    exact hi
  have hfilter2 : (c4Segment 100 401).filter
      (fun p => decide (p.1 ∉ List.range' 0 100)) = c4Segment 100 401 := by
    rw [List.filter_eq_self]
    intro p hp
    rw [c4Segment, List.mem_map] at hp
    obtain ⟨i, hi, rfl⟩ := hp
    rw [List.mem_range'_1] at hi
    rw [decide_eq_true_eq]
    intro hmem
    rw [List.mem_range'_1] at hmem
    omega
  rw [hfilter1, hfilter2, List.nil_append]

/-- Stage 3: after the eviction, the remaining sets append without further
eviction. -/
lemma c4Store_post : ∀ k, k ≤ 9 → c4Store (501 + k) = c4Segment 100 (401 + k) := by
  intro k
  induction k with
  | zero => intro _; exact c4Store_501
  | succ k ih =>
    intro hk
    have hstep : (501 : ℕ) + (k + 1) = (501 + k) + 1 := by omega
    rw [hstep, c4Store, ih (by omega), setCache,
      cacheInsert_fresh _ _ _ (c4Segment_fresh 100 (401 + k) (501 + k) (by omega))]
    have hconcat := c4Segment_concat 100 (401 + k)
    have hkey : 100 + (401 + k) = 501 + k := by omega
    rw [hkey] at hconcat
    rw [hconcat]
    have hlen : (c4Segment 100 (401 + k + 1)).length = 402 + k :=
      (c4Segment_length 100 (401 + k + 1)).trans (by omega)
    rw [if_neg (by rw [hlen]; omega)]
    rfl

/-- The full run: 510 logical sets leave exactly keys 100–509. -/
lemma c4Store_510 : c4Store 510 = c4Segment 100 410 :=
  (by norm_num : (510 : ℕ) = 501 + 9) ▸ c4Store_post 9 (by omega)

/-- A forward-lookup store for the TTL theorem: one entry, 30 days old at
probe time. -/
def c4OldEntry : CacheEntry := ⟨"10 Main St", ⟨1, 2⟩, 0⟩

/-- Concrete one-entry store under the pre-normalized key. -/
def c4TestStore : List (String × CacheEntry) := [("10 main st", c4OldEntry)]

/-- C4: after setting 450 entries and then 60 more distinct entries (510
logical sets), the store holds 410 ≤ 500 entries; the 100 entries with the
globally oldest timestamps (keys 0–99) are absent and the 410 newest are
present.  A forward-lookup entry whose age is at least 30 days is treated as
a cache miss by `geocodeAddress`'s probe, while an equally old
reverse-lookup entry is still returned as a hit. -/
theorem claim_C4 :
    (c4Store 510).length = 410 ∧
    (c4Store 510).length ≤ 500 ∧
    (∀ i, i < 100 → cacheLookup (c4Store 510) i = none) ∧
    (∀ i, 100 ≤ i → i < 510 → cacheLookup (c4Store 510) i = some (c4Entry i)) ∧
    (∀ (store : List (String × CacheEntry)) (k : String) (now : ℤ) (e : CacheEntry),
      cacheLookup store k = some e → cacheTTLMs ≤ now - e.timestamp →
      forwardCacheHit store k now = none) ∧
    (∀ (store : List (String × CacheEntry)) (k : String) (e : CacheEntry),
      cacheLookup store k = some e → reverseCacheHit store k = some e) := by
  refine ⟨?_, ?_, ?_, ?_, ?_, ?_⟩
  · rw [c4Store_510]
    exact c4Segment_length 100 410
  · rw [c4Store_510, c4Segment_length]
    omega
  · intro i hi
    rw [c4Store_510, cacheLookup_segment, if_neg (by omega)]
  · intro i h1 h2
    rw [c4Store_510, cacheLookup_segment, if_pos (by omega)]
  · intro store k now e hlook hage
    rw [forwardCacheHit, hlook]
    show (if now - e.timestamp < cacheTTLMs then some e else none) = none
    rw [if_neg (by omega)]
  · intro store k e hlook
    rw [reverseCacheHit]
    exact hlook

/-- C4 (witness): concrete probes of the eviction run and of a 30-day-old
entry. -/
theorem claim_C4_witness :
    cacheLookup (c4Store 510) 50 = none ∧
    cacheLookup (c4Store 510) 200 = some (c4Entry 200) ∧
    forwardCacheHit c4TestStore "10 main st" cacheTTLMs = none ∧
    reverseCacheHit c4TestStore "10 main st" = some c4OldEntry :=
  ⟨claim_C4.2.2.1 50 (by omega),
   claim_C4.2.2.2.1 200 (by omega) (by omega),
   claim_C4.2.2.2.2.1 c4TestStore "10 main st" cacheTTLMs c4OldEntry rfl (by decide),
   claim_C4.2.2.2.2.2 c4TestStore "10 main st" c4OldEntry rfl⟩

/-! ## Nav — shallow embedding of the navigation engine hook

The hook state is the React `navState` plus the refs (`stepsRef`,
`directionsRef`, `lastSpokenStepRef`, `isActiveRef`); its operations are the
`startNavigation`/`markDelivered`/`skipStop` callbacks and the GPS-sample
effect.  Each operation returns the new hook state together with the list of
`speak(...)` announcement requests it issues, abstracted as structured
events (localized announcement text and the Web Speech API are outside the
verified core, as is the `voiceEnabled` gate inside `speak`). -/

inductive StopStatus where
  | pending
  | current
  | delivered
  | skipped
deriving DecidableEq

structure NavigationStep where
  instruction : String
  distance : String
  distanceValue : ℚ
  maneuver : Option String
deriving DecidableEq

structure RouteLeg where
  stopIndex : ℕ
  address : String
  duration : String
  durationValue : ℚ
  distance : String
  distanceValue : ℚ

structure OptimizedRoute where
  orderedStops : List DeliveryStop
  legs : List RouteLeg
  totalDistance : String
  totalDistanceValue : ℚ
  totalDuration : String
  totalDurationValue : ℚ
  polyline : String

structure GPSPosition where
  lat : ℚ
  lng : ℚ
  speed : ℚ
  heading : ℚ
  accuracy : ℚ
  timestamp : ℚ

/-- One `google.maps.DirectionsStep`: HTML instruction text, optional
distance object and optional maneuver, exactly the fields the hook reads. -/
structure DStep where
  instructions : Option String
  distance : Option (String × ℚ)
  maneuver : Option String

structure DLeg where
  steps : List DStep

structure DRoute where
  legs : List DLeg

structure Directions where
  routes : List DRoute

/-- JavaScript `x || y` on numbers (left operand unless it is `0`). -/
def jsOrQ (a b : ℚ) : ℚ := if a = 0 then b else a

/-- JavaScript `x || y` on strings (left operand unless it is `""`). -/
def jsOrS (a b : String) : String := if a = "" then b else a

/-- JavaScript `s || undefined` (collapse the empty string to `undefined`). -/
def jsMaybeStr : Option String → Option String
  | some s => if s = "" then none else some s
  | none => none

/-- Embedding of `Math.round`: round half toward positive infinity. -/
def jsRound (q : ℚ) : ℤ := ⌊q + 1 / 2⌋

/-- Embedding of `Array.prototype.slice(i)`, including JavaScript's negative-index
clamping. -/
def jsSliceFrom {α : Type} (l : List α) (i : ℤ) : List α :=
  if 0 ≤ i then l.drop i.toNat
  else l.drop (l.length - min l.length (-i).toNat)

/-- Step conversion shared by `extractAllSteps`/`extractLegSteps` (lines
398–403 and 414–419): `stripHTML(step.instructions || '')`,
`step.distance?.text || ''`, `step.distance?.value || 0`,
`step.maneuver || undefined`. -/
def toNavStep (strip : String → String) (s : DStep) : NavigationStep :=
  { instruction := strip (s.instructions.getD "")
    distance := (s.distance.map Prod.fst).getD ""
    distanceValue := (s.distance.map Prod.snd).getD 0
    maneuver := jsMaybeStr s.maneuver }

/-- Embedding of `extractAllSteps` (lines 391–407): every step of every leg of
`routes[0]`, in order. -/
def extractAllSteps (strip : String → String) (d : Directions) : List NavigationStep :=
  match d.routes.head? with
  | none => []
  | some route => route.legs.flatMap fun leg => leg.steps.map (toNavStep strip)

/-- Embedding of `extractLegSteps` (lines 410–420): the steps of leg `legIndex` of
`routes[0]` only. -/
def extractLegSteps (strip : String → String) (d : Directions) (legIndex : ℕ) :
    List NavigationStep :=
  match d.routes.head? with
  | none => []
  | some route =>
    match route.legs[legIndex]? with
    | none => []
    | some leg => leg.steps.map (toNavStep strip)

/-- Number of legs of `routes[0]`. -/
def legCount (d : Directions) : ℕ :=
  match d.routes.head? with
  | none => 0
  | some route => route.legs.length

/-- Scanning core of `findNextPendingStop`, carrying the absolute index. -/
def findNextAux : List StopStatus → ℕ → Option ℕ
  | [], _ => none
  | s :: rest, i =>
    if s = StopStatus.pending ∨ s = StopStatus.current then some i
    else findNextAux rest (i + 1)

/-- Embedding of `findNextPendingStop` (lines 309–314): first index after `afterIndex`
whose status is `pending` or `current`; `-1` is embedded as `none`. -/
def findNextPendingStop (statuses : List StopStatus) (afterIndex : ℕ) : Option ℕ :=
  findNextAux (statuses.drop (afterIndex + 1)) (afterIndex + 1)

/-- Embedding of `NavigationState` (types/index.ts lines 65–82). -/
structure NavState where
  isActive : Bool
  currentStopIndex : ℕ
  stopStatuses : List StopStatus
  currentStep : Option NavigationStep
  nextStep : Option NavigationStep
  allSteps : List NavigationStep
  currentStepIndex : ℕ
  distanceToNextStop : ℚ
  etaToNextStop : String
  totalRemainingDistance : String
  totalRemainingTime : String
  isOffRoute : Bool
  isRecalculating : Bool
  isNearStop : Bool
  completedStops : ℕ
  totalStops : ℕ

/-- Embedding of `getInitialState` (lines 288–307). -/
def getInitialState : NavState :=
  { isActive := false, currentStopIndex := 0, stopStatuses := [],
    currentStep := none, nextStep := none, allSteps := [], currentStepIndex := 0,
    distanceToNextStop := 0, etaToNextStop := "", totalRemainingDistance := "",
    totalRemainingTime := "", isOffRoute := false, isRecalculating := false,
    isNearStop := false, completedStops := 0, totalStops := 0 }

/-- The hook's full mutable state: `navState` plus the refs. -/
structure Machine where
  nav : NavState
  stepsRef : List NavigationStep
  directionsRef : Option Directions
  lastSpokenStep : ℤ
  isActiveRef : Bool

/-- Hook state on mount: `getInitialState()`, empty `stepsRef`,
`lastSpokenStepRef = -1`, inactive. -/
def initialMachine : Machine :=
  { nav := getInitialState, stepsRef := [], directionsRef := none,
    lastSpokenStep := -1, isActiveRef := false }

/-- One structured event per `speak(...)` call site. -/
inductive NavEvent where
  | navigationStarted
  | stepAnnounced (step : NavigationStep)
  | arrivalAnnounced (stopIndex : ℕ) (orderNumber : Option String)
  | deliveredHeading (nextIndex : ℕ)
  | allDelivered
  | skippedHeading (nextIndex : ℕ)
deriving DecidableEq

/-- Embedding of `formatETA` (lines 326–333); `Math.floor(mins / 60)` agrees with integer
division because `mins ≥ 60` there. -/
def formatETA (seconds : ℚ) : String :=
  if seconds < 60 then "< 1 min"
  else
    let mins := jsRound (seconds / 60)
    if mins < 60 then toString mins ++ " min"
    else toString (mins / 60) ++ "h " ++ toString (mins % 60) ++ "m"

/-- Embedding of `Number.prototype.toFixed(1)` for the non-negative values it is applied
to: round half up to one decimal. -/
def toFixed1 (q : ℚ) : String :=
  let n := ⌊q * 10 + 1 / 2⌋
  toString (n / 10) ++ "." ++ toString (n % 10)

/-- Embedding of `formatDistance` (lines 335–338). -/
def formatDistance (meters : ℚ) : String :=
  if meters < 1000 then toString (jsRound meters) ++ " m"
  else toFixed1 (meters / 1000) ++ " km"

/-- Embedding of `formatDuration` (lines 340–347), textually identical to `formatETA`. -/
def formatDuration (seconds : ℚ) : String :=
  if seconds < 60 then "< 1 min"
  else
    let mins := jsRound (seconds / 60)
    if mins < 60 then toString mins ++ " min"
    else toString (mins / 60) ++ "h " ++ toString (mins % 60) ++ "m"

/-- The ETA divisor (line 96): `const speedMs = (gpsPosition.speed / 3.6) || 1`
— km/h to m/s, falling back to 1 only when the quotient is exactly 0 (this is
a zero fallback, not a lower clamp). -/
def navSpeedMs (speedKmh : ℚ) : ℚ := jsOrQ (speedKmh / (36 / 10)) 1

/-- Step-advancement heuristic (lines 100–114): `progress = 1 −
dist/(prev.distanceToNextStop || dist || 1)`, candidate `floor(progress ·
stepCount · 0.5) + index` clamped to `stepCount − 1`, applied only when it
moves forward. -/
def stepAdvance (stepCount currentStepIndex : ℕ) (distToStop prevDist : ℚ) : ℕ :=
  if 0 < stepCount ∧ currentStepIndex < stepCount - 1 then
    let progress := 1 - distToStop / jsOrQ prevDist (jsOrQ distToStop 1)
    let expectedStep : ℤ :=
      min (⌊progress * stepCount * (1 / 2)⌋ + currentStepIndex)
        ((stepCount : ℤ) - 1)
    if (currentStepIndex : ℤ) < expectedStep then expectedStep.toNat
    else currentStepIndex
  else currentStepIndex

/-- Embedding of `startNavigation` (lines 26–71).  The asynchronous
`fetchDirections(stops, lang)` collaborator call is abstracted by its result
`fetchResult`; a `none` result is the `if (!directions) return` early
exit. -/
def startNavigation (strip : String → String) (optimizedRoute : Option OptimizedRoute)
    (mapsLoaded : Bool) (fetchResult : Option Directions) (m : Machine) :
    Machine × List NavEvent :=
  match optimizedRoute with
  | none => (m, [])
  | some route =>
    if !mapsLoaded then (m, [])
    else if route.orderedStops.length < 2 then (m, [])
    else
      match fetchResult with
      | none => (m, [])
      | some directions =>
        let stops := route.orderedStops
        let statuses := (List.range stops.length).map fun i =>
          if i = 0 then StopStatus.delivered
          else if i = 1 then StopStatus.current
          else StopStatus.pending
        let allSteps := extractAllSteps strip directions
        let firstLegDistance : ℚ :=
          match route.legs.head? with
          | some leg => jsOrQ leg.distanceValue 0
          | none => 0
        let firstLegEta : String :=
          match route.legs.head? with
          | some leg => jsOrS leg.duration ""
          | none => ""
        let nav' : NavState :=
          { isActive := true
            currentStopIndex := 1
            stopStatuses := statuses
            currentStep := allSteps[0]?
            nextStep := allSteps[1]?
            allSteps := allSteps
            currentStepIndex := 0
            distanceToNextStop := firstLegDistance
            etaToNextStop := firstLegEta
            totalRemainingDistance := route.totalDistance
            totalRemainingTime := route.totalDuration
            isOffRoute := false
            isRecalculating := false
            isNearStop := false
            completedStops := 0
            totalStops := stops.length - 1 }
        ({ nav := nav', stepsRef := allSteps, directionsRef := some directions,
           lastSpokenStep := -1, isActiveRef := true },
         [NavEvent.navigationStarted])

/-- Body of the GPS effect after its early returns (lines 84–149).
`hav` abstracts `haversineDistance` with its four arguments in source
order. -/
def gpsUpdateCore (hav : ℚ → ℚ → ℚ → ℚ → ℚ) (route : OptimizedRoute)
    (gps : GPSPosition) (currentStop : DeliveryStop) (loc : LatLng)
    (m : Machine) : Machine × List NavEvent :=
  let distToStop := hav gps.lat gps.lng loc.lat loc.lng
  let isNearStop := decide (distToStop < 50)
  let isOffRoute := !m.nav.isRecalculating && decide (150 * 3 < distToStop)
  let etaSeconds := distToStop / navSpeedMs gps.speed
  let steps := m.stepsRef
  let newStepIndex := stepAdvance steps.length m.nav.currentStepIndex distToStop
    m.nav.distanceToNextStop
  let announceStep := decide ((newStepIndex : ℤ) ≠ m.lastSpokenStep) &&
    steps[newStepIndex]?.isSome
  let stepEvents :=
    match steps[newStepIndex]? with
    | some s =>
      if (newStepIndex : ℤ) ≠ m.lastSpokenStep then [NavEvent.stepAnnounced s] else []
    | none => []
  let arrivalEvents :=
    if isNearStop && !m.nav.isNearStop then
      [NavEvent.arrivalAnnounced m.nav.currentStopIndex currentStop.orderNumber]
    else []
  let remainingLegs := jsSliceFrom route.legs ((m.nav.currentStopIndex : ℤ) - 1)
  let totalRemDist := remainingLegs.foldl (fun sum leg => sum + leg.distanceValue) 0
  let totalRemTime := remainingLegs.foldl (fun sum leg => sum + leg.durationValue) 0
  let newCurrentStep :=
    match steps[newStepIndex]? with
    | some s => some s
    | none => m.nav.currentStep
  let nav' : NavState :=
    { m.nav with
      distanceToNextStop := (jsRound distToStop : ℚ)
      etaToNextStop := formatETA etaSeconds
      isNearStop := isNearStop
      isOffRoute := isOffRoute
      currentStepIndex := newStepIndex
      currentStep := newCurrentStep
      nextStep := steps[newStepIndex + 1]?
      totalRemainingDistance := formatDistance totalRemDist
      totalRemainingTime := formatDuration totalRemTime }
  let lastSpoken' := if announceStep then (newStepIndex : ℤ) else m.lastSpokenStep
  ({ m with nav := nav', lastSpokenStep := lastSpoken' },
   stepEvents ++ arrivalEvents)

/-- The GPS-sample effect (lines 74–151): early returns for an inactive
session, missing GPS fix, missing route, or a current stop without a
coordinate; otherwise the update body. -/
def onGpsSample (hav : ℚ → ℚ → ℚ → ℚ → ℚ) (optimizedRoute : Option OptimizedRoute)
    (gpsPosition : Option GPSPosition) (m : Machine) : Machine × List NavEvent :=
  if !m.isActiveRef then (m, [])
  else
    match gpsPosition, optimizedRoute with
    | some gps, some route =>
      if !m.nav.isActive then (m, [])
      else
        match route.orderedStops[m.nav.currentStopIndex]? with
        | none => (m, [])
        | some currentStop =>
          match currentStop.location with
          | none => (m, [])
          | some loc => gpsUpdateCore hav route gps currentStop loc m
    | _, _ => (m, [])

/-- Embedding of `markDelivered` (lines 154–217). -/
def markDelivered (strip : String → String) (optimizedRoute : Option OptimizedRoute)
    (m : Machine) : Machine × List NavEvent :=
  match optimizedRoute with
  | none => (m, [])
  | some route =>
    if !m.nav.isActive then (m, [])
    else
      let newStatuses := m.nav.stopStatuses.set m.nav.currentStopIndex StopStatus.delivered
      let completed := newStatuses.count StopStatus.delivered - 1
      match findNextPendingStop newStatuses m.nav.currentStopIndex with
      | none =>
        let nav' : NavState :=
          { m.nav with
            stopStatuses := newStatuses
            isActive := false
            completedStops := completed
            isNearStop := false }
        ({ m with nav := nav', isActiveRef := false }, [NavEvent.allDelivered])
      | some nextIndex =>
        let newStatuses2 := newStatuses.set nextIndex StopStatus.current
        match m.directionsRef with
        | some directions =>
          let legIndex := nextIndex - 1
          let legSteps := extractLegSteps strip directions legIndex
          let legDistance : ℚ :=
            match route.legs[legIndex]? with
            | some leg => jsOrQ leg.distanceValue 0
            | none => 0
          let legEta : String :=
            match route.legs[legIndex]? with
            | some leg => jsOrS leg.duration ""
            | none => ""
          let nav' : NavState :=
            { m.nav with
              currentStopIndex := nextIndex
              stopStatuses := newStatuses2
              completedStops := completed
              isNearStop := false
              currentStepIndex := 0
              currentStep := legSteps[0]?
              nextStep := legSteps[1]?
              allSteps := legSteps
              distanceToNextStop := legDistance
              etaToNextStop := legEta }
          ({ m with nav := nav', stepsRef := legSteps, lastSpokenStep := -1 },
           [NavEvent.deliveredHeading nextIndex])
        | none =>
          let nav' : NavState :=
            { m.nav with
              currentStopIndex := nextIndex
              stopStatuses := newStatuses2
              completedStops := completed
              isNearStop := false }
          ({ m with nav := nav' }, [NavEvent.deliveredHeading nextIndex])

/-- Embedding of `skipStop` (lines 220–260): like `markDelivered` with status `skipped`,
no completion count update, and a silent terminal transition. -/
def skipStop (strip : String → String) (optimizedRoute : Option OptimizedRoute)
    (m : Machine) : Machine × List NavEvent :=
  match optimizedRoute with
  | none => (m, [])
  | some _route =>
    if !m.nav.isActive then (m, [])
    else
      let newStatuses := m.nav.stopStatuses.set m.nav.currentStopIndex StopStatus.skipped
      match findNextPendingStop newStatuses m.nav.currentStopIndex with
      | none =>
        let nav' : NavState :=
          { m.nav with
            stopStatuses := newStatuses
            isActive := false }
        ({ m with nav := nav', isActiveRef := false }, [])
      | some nextIndex =>
        let newStatuses2 := newStatuses.set nextIndex StopStatus.current
        match m.directionsRef with
        | some directions =>
          let legSteps := extractLegSteps strip directions (nextIndex - 1)
          let nav' : NavState :=
            { m.nav with
              currentStopIndex := nextIndex
              stopStatuses := newStatuses2
              isNearStop := false
              currentStepIndex := 0
              currentStep := legSteps[0]?
              nextStep := legSteps[1]?
              allSteps := legSteps }
          ({ m with nav := nav', stepsRef := legSteps, lastSpokenStep := -1 },
           [NavEvent.skippedHeading nextIndex])
        | none =>
          let nav' : NavState :=
            { m.nav with
              currentStopIndex := nextIndex
              stopStatuses := newStatuses2
              isNearStop := false }
          ({ m with nav := nav' }, [NavEvent.skippedHeading nextIndex])

/-- Embedding of `exitNavigation` (lines 263–267): back to the inert state; `stepsRef`,
`directionsRef` and `lastSpokenStepRef` are not cleared by the source. -/
def exitNavigation (m : Machine) : Machine × List NavEvent :=
  ({ m with nav := getInitialState, isActiveRef := false }, [])

/-! ### Specification of `findNextPendingStop` -/

/-- A status slot that `findNextPendingStop` accepts. -/
def Nextable (o : Option StopStatus) : Prop :=
  o = some StopStatus.pending ∨ o = some StopStatus.current

instance (o : Option StopStatus) : Decidable (Nextable o) := by
  unfold Nextable
  infer_instance

lemma findNextAux_some {l : List StopStatus} :
    ∀ {base j : ℕ}, findNextAux l base = some j →
      base ≤ j ∧ j < base + l.length ∧ Nextable l[j - base]? ∧
      ∀ t, t < j - base → ¬ Nextable l[t]? := by
  induction l with
  | nil => intro base j h; cases h
  | cons s rest ih =>
    intro base j h
    rw [findNextAux] at h
    by_cases hc : s = StopStatus.pending ∨ s = StopStatus.current
    · rw [if_pos hc] at h
      injection h with h
      subst h
      refine ⟨le_refl _, by simp, ?_, ?_⟩
      · rw [Nat.sub_self, List.getElem?_cons_zero]
        rcases hc with hc | hc
        · exact Or.inl (by rw [hc])
        · exact Or.inr (by rw [hc])
      · intro t ht
        omega
    · rw [if_neg hc] at h
      obtain ⟨h1, h2, h3, h4⟩ := ih h
      have hbj : base + 1 ≤ j := h1
      refine ⟨by omega, by simp; omega, ?_, ?_⟩
      · have : j - base = (j - (base + 1)) + 1 := by omega
        rw [this, List.getElem?_cons_succ]
        exact h3
      · intro t ht
        cases t with
        | zero =>
          rw [List.getElem?_cons_zero]
          rintro (h' | h') <;> [exact hc (Or.inl (by injection h')); skip]
          exact hc (Or.inr (by injection h'))
        | succ t' =>
          rw [List.getElem?_cons_succ]
          exact h4 t' (by omega)

lemma findNextAux_none {l : List StopStatus} :
    ∀ {base : ℕ}, findNextAux l base = none → ∀ t : ℕ, ¬ Nextable l[t]? := by
  induction l with
  | nil =>
    intro base _ t
    rintro (h | h) <;> simp at h
  | cons s rest ih =>
    intro base h t
    rw [findNextAux] at h
    by_cases hc : s = StopStatus.pending ∨ s = StopStatus.current
    · rw [if_pos hc] at h
      cases h
    · rw [if_neg hc] at h
      cases t with
      | zero =>
        rw [List.getElem?_cons_zero]
        rintro (h' | h') <;> [exact hc (Or.inl (by injection h')); skip]
        exact hc (Or.inr (by injection h'))
      | succ t' =>
        rw [List.getElem?_cons_succ]
        exact ih h t'

/-- What a successful `findNextPendingStop` scan guarantees: the result is
the first index after `afterIndex` whose status is `pending` or `current`. -/
lemma findNextPendingStop_some {statuses : List StopStatus} {i j : ℕ}
    (h : findNextPendingStop statuses i = some j) :
    i < j ∧ Nextable statuses[j]? ∧
    ∀ k, i < k → k < j → ¬ Nextable statuses[k]? := by
  rw [findNextPendingStop] at h
  obtain ⟨h1, _, h3, h4⟩ := findNextAux_some h
  have hij : i < j := by omega
  refine ⟨hij, ?_, ?_⟩
  · rw [List.getElem?_drop] at h3
    have : i + 1 + (j - (i + 1)) = j := by omega
    rwa [this] at h3
  · intro k hk1 hk2
    have := h4 (k - (i + 1)) (by omega)
    rw [List.getElem?_drop] at this
    have heq : i + 1 + (k - (i + 1)) = k := by omega
    rwa [heq] at this

/-- A failed scan means nothing after `afterIndex` is `pending` or
`current`. -/
lemma findNextPendingStop_none {statuses : List StopStatus} {i : ℕ}
    (h : findNextPendingStop statuses i = none) :
    ∀ k, i < k → ¬ Nextable statuses[k]? := by
  rw [findNextPendingStop] at h
  intro k hk
  have := findNextAux_none h (k - (i + 1))
  rw [List.getElem?_drop] at this
  have heq : i + 1 + (k - (i + 1)) = k := by omega
  rwa [heq] at this

/-! ### The stop-status invariant -/

/-- Spec §3 invariant of an active session: the current index is at least 1
and in range, stop 0 is `delivered`, and `current` appears exactly at
`currentStopIndex`. -/
def NavInv (m : Machine) : Prop :=
  m.nav.isActive = true →
    1 ≤ m.nav.currentStopIndex ∧
    m.nav.currentStopIndex < m.nav.stopStatuses.length ∧
    m.nav.stopStatuses[0]? = some StopStatus.delivered ∧
    ∀ j, j < m.nav.stopStatuses.length →
      (m.nav.stopStatuses[j]? = some StopStatus.current ↔ j = m.nav.currentStopIndex)

/-- Forward movement of one stop's status: stay put, `pending → current`, or
`current → {delivered, skipped}`. -/
def StatusStep (a b : StopStatus) : Prop :=
  a = b ∨ (a = StopStatus.pending ∧ b = StopStatus.current) ∨
    (a = StopStatus.current ∧ (b = StopStatus.delivered ∨ b = StopStatus.skipped))

/-- Pointwise forward movement of the whole status array. -/
def StatusesMono (old new : List StopStatus) : Prop :=
  new.length = old.length ∧
  ∀ (j : ℕ) (a b : StopStatus), old[j]? = some a → new[j]? = some b → StatusStep a b

lemma statusesMono_refl (l : List StopStatus) : StatusesMono l l :=
  ⟨rfl, fun _ a b ha hb => Or.inl (by rw [ha] at hb; injection hb)⟩

/-! ### Shape lemmas for the machine operations -/

lemma markDelivered_inactive (strip : String → String)
    (route : Option OptimizedRoute) (m : Machine) (h : m.nav.isActive = false) :
    markDelivered strip route m = (m, []) := by
  cases route with
  | none => rfl
  | some r => simp [markDelivered, h]

lemma skipStop_inactive (strip : String → String) (route : Option OptimizedRoute)
    (m : Machine) (h : m.nav.isActive = false) :
    skipStop strip route m = (m, []) := by
  cases route with
  | none => rfl
  | some r => simp [skipStop, h]

lemma onGpsSample_inactive (hav : ℚ → ℚ → ℚ → ℚ → ℚ)
    (route : Option OptimizedRoute) (gps : Option GPSPosition) (m : Machine)
    (h : m.nav.isActive = false) :
    onGpsSample hav route gps m = (m, []) := by
  cases hr : m.isActiveRef with
  | false => simp [onGpsSample, hr]
  | true =>
    cases gps with
    | none => simp [onGpsSample, hr]
    | some g =>
      cases route with
      | none => simp [onGpsSample, hr]
      | some r => simp [onGpsSample, hr, h]

lemma markDelivered_activeNone_fields (strip : String → String)
    (r : OptimizedRoute) (m : Machine) (hact : m.nav.isActive = true)
    (hfind : findNextPendingStop
      (m.nav.stopStatuses.set m.nav.currentStopIndex StopStatus.delivered)
      m.nav.currentStopIndex = none) :
    (markDelivered strip (some r) m).1.nav.stopStatuses =
      m.nav.stopStatuses.set m.nav.currentStopIndex StopStatus.delivered ∧
    (markDelivered strip (some r) m).1.nav.isActive = false ∧
    (markDelivered strip (some r) m).1.nav.currentStopIndex = m.nav.currentStopIndex ∧
    (markDelivered strip (some r) m).2 = [NavEvent.allDelivered] := by
  simp [markDelivered, hact, hfind]

lemma markDelivered_activeSome_fields (strip : String → String)
    (r : OptimizedRoute) (m : Machine) (next : ℕ) (hact : m.nav.isActive = true)
    (hfind : findNextPendingStop
      (m.nav.stopStatuses.set m.nav.currentStopIndex StopStatus.delivered)
      m.nav.currentStopIndex = some next) :
    (markDelivered strip (some r) m).1.nav.stopStatuses =
      (m.nav.stopStatuses.set m.nav.currentStopIndex StopStatus.delivered).set next
        StopStatus.current ∧
    (markDelivered strip (some r) m).1.nav.isActive = true ∧
    (markDelivered strip (some r) m).1.nav.currentStopIndex = next ∧
    (markDelivered strip (some r) m).2 = [NavEvent.deliveredHeading next] := by
  cases hd : m.directionsRef with
  | none => simp [markDelivered, hact, hfind, hd]
  | some d => simp [markDelivered, hact, hfind, hd]

lemma skipStop_activeNone_fields (strip : String → String)
    (r : OptimizedRoute) (m : Machine) (hact : m.nav.isActive = true)
    (hfind : findNextPendingStop
      (m.nav.stopStatuses.set m.nav.currentStopIndex StopStatus.skipped)
      m.nav.currentStopIndex = none) :
    (skipStop strip (some r) m).1.nav.stopStatuses =
      m.nav.stopStatuses.set m.nav.currentStopIndex StopStatus.skipped ∧
    (skipStop strip (some r) m).1.nav.isActive = false ∧
    (skipStop strip (some r) m).1.nav.currentStopIndex = m.nav.currentStopIndex ∧
    (skipStop strip (some r) m).2 = [] := by
  simp [skipStop, hact, hfind]

lemma skipStop_activeSome_fields (strip : String → String)
    (r : OptimizedRoute) (m : Machine) (next : ℕ) (hact : m.nav.isActive = true)
    (hfind : findNextPendingStop
      (m.nav.stopStatuses.set m.nav.currentStopIndex StopStatus.skipped)
      m.nav.currentStopIndex = some next) :
    (skipStop strip (some r) m).1.nav.stopStatuses =
      (m.nav.stopStatuses.set m.nav.currentStopIndex StopStatus.skipped).set next
        StopStatus.current ∧
    (skipStop strip (some r) m).1.nav.isActive = true ∧
    (skipStop strip (some r) m).1.nav.currentStopIndex = next ∧
    (skipStop strip (some r) m).2 = [NavEvent.skippedHeading next] := by
  cases hd : m.directionsRef with
  | none => simp [skipStop, hact, hfind, hd]
  | some d => simp [skipStop, hact, hfind, hd]

lemma onGpsSample_fields (hav : ℚ → ℚ → ℚ → ℚ → ℚ)
    (route : Option OptimizedRoute) (gps : Option GPSPosition) (m : Machine) :
    (onGpsSample hav route gps m).1.nav.stopStatuses = m.nav.stopStatuses ∧
    (onGpsSample hav route gps m).1.nav.isActive = m.nav.isActive ∧
    (onGpsSample hav route gps m).1.nav.currentStopIndex = m.nav.currentStopIndex := by
  cases hr : m.isActiveRef with
  | false => simp [onGpsSample, hr]
  | true =>
    cases gps with
    | none => simp [onGpsSample, hr]
    | some g =>
      cases route with
      | none => simp [onGpsSample, hr]
      | some r =>
        cases hact : m.nav.isActive with
        | false => simp [onGpsSample, hr, hact]
        | true =>
          cases hstop : r.orderedStops[m.nav.currentStopIndex]? with
          | none => simp [onGpsSample, hr, hact, hstop]
          | some stop =>
            cases hloc : stop.location with
            | none => simp [onGpsSample, hr, hact, hstop, hloc]
            | some loc => simp [onGpsSample, gpsUpdateCore, hr, hact, hstop, hloc]

lemma jsOrQ_zero (a : ℚ) : jsOrQ a 0 = a := by
  unfold jsOrQ
  split_ifs with h
  · exact h.symm
  · rfl

lemma jsOrS_empty (s : String) : jsOrS s "" = s := by
  unfold jsOrS
  split_ifs with h
  · exact h.symm
  · rfl

/-- The status array written by `startNavigation`. -/
def startStatuses (n : ℕ) : List StopStatus :=
  (List.range n).map fun i =>
    if i = 0 then StopStatus.delivered
    else if i = 1 then StopStatus.current
    else StopStatus.pending

lemma startNavigation_fields (strip : String → String) (route : OptimizedRoute)
    (dirs : Directions) (m : Machine) (h2 : 2 ≤ route.orderedStops.length) :
    (startNavigation strip (some route) true (some dirs) m).1.nav.isActive = true ∧
    (startNavigation strip (some route) true (some dirs) m).1.nav.currentStopIndex = 1 ∧
    (startNavigation strip (some route) true (some dirs) m).1.nav.stopStatuses =
      startStatuses route.orderedStops.length ∧
    (startNavigation strip (some route) true (some dirs) m).1.nav.allSteps =
      extractAllSteps strip dirs ∧
    (startNavigation strip (some route) true (some dirs) m).1.stepsRef =
      extractAllSteps strip dirs ∧
    (startNavigation strip (some route) true (some dirs) m).1.isActiveRef = true ∧
    (startNavigation strip (some route) true (some dirs) m).1.lastSpokenStep = -1 ∧
    (startNavigation strip (some route) true (some dirs) m).1.nav.currentStepIndex = 0 ∧
    (∀ leg, route.legs.head? = some leg →
      (startNavigation strip (some route) true (some dirs) m).1.nav.distanceToNextStop =
        leg.distanceValue ∧
      (startNavigation strip (some route) true (some dirs) m).1.nav.etaToNextStop =
        leg.duration) ∧
    (startNavigation strip (some route) true (some dirs) m).2 =
      [NavEvent.navigationStarted] := by
  have hlt : ¬ route.orderedStops.length < 2 := by omega
  simp only [startNavigation, Bool.not_true, Bool.false_eq_true, if_false, hlt,
    startStatuses]
  refine ⟨by trivial, by trivial, by trivial, by trivial, by trivial, by trivial,
    by trivial, by trivial, ?_, by trivial⟩
  intro leg hleg
  rw [hleg]
  exact ⟨jsOrQ_zero _, jsOrS_empty _⟩

lemma startStatuses_get (n j : ℕ) (hj : j < n) :
    (startStatuses n)[j]? = some (if j = 0 then StopStatus.delivered
      else if j = 1 then StopStatus.current else StopStatus.pending) := by
  rw [startStatuses, List.getElem?_map, List.getElem?_range hj]
  rfl

lemma startStatuses_length (n : ℕ) : (startStatuses n).length = n := by
  rw [startStatuses, List.length_map, List.length_range]

/-! ### Invariant establishment and preservation -/

lemma NavInv_startNavigation_success (strip : String → String)
    (route : OptimizedRoute) (dirs : Directions) (m : Machine)
    (h2 : 2 ≤ route.orderedStops.length) :
    NavInv (startNavigation strip (some route) true (some dirs) m).1 := by
  obtain ⟨hact, hcur, hstat, _⟩ := startNavigation_fields strip route dirs m h2
  intro _
  rw [hcur, hstat, startStatuses_length]
  refine ⟨le_refl 1, by omega, ?_, ?_⟩
  · rw [startStatuses_get _ 0 (by omega)]
    rfl
  · intro j hj
    rw [startStatuses_get _ j hj]
    by_cases hj0 : j = 0
    · subst hj0
      simp
    · by_cases hj1 : j = 1
      · subst hj1
        simp
      · rw [if_neg hj0, if_neg hj1]
        simp [hj1]

lemma NavInv_startNavigation (strip : String → String)
    (optRoute : Option OptimizedRoute) (mapsLoaded : Bool)
    (fetch : Option Directions) (m : Machine) (hinv : NavInv m) :
    NavInv (startNavigation strip optRoute mapsLoaded fetch m).1 := by
  cases optRoute with
  | none => exact hinv
  | some route =>
    cases mapsLoaded with
    | false => exact hinv
    | true =>
      by_cases hlen : route.orderedStops.length < 2
      · have hrw : (startNavigation strip (some route) true fetch m).1 = m := by
          cases fetch <;> simp [startNavigation, hlen]
        rw [hrw]
        exact hinv
      · cases fetch with
        | none =>
          have hrw : (startNavigation strip (some route) true none m).1 = m := by
            simp [startNavigation, hlen]
          rw [hrw]
          exact hinv
        | some dirs => exact NavInv_startNavigation_success strip route dirs m (by omega)

lemma NavInv_onGpsSample (hav : ℚ → ℚ → ℚ → ℚ → ℚ)
    (route : Option OptimizedRoute) (gps : Option GPSPosition) (m : Machine)
    (hinv : NavInv m) :
    NavInv (onGpsSample hav route gps m).1 ∧
    StatusesMono m.nav.stopStatuses (onGpsSample hav route gps m).1.nav.stopStatuses := by
  obtain ⟨hs, ha, hc⟩ := onGpsSample_fields hav route gps m
  constructor
  · intro h
    rw [ha] at h
    rw [hs, hc]
    exact hinv h
  · rw [hs]
    exact statusesMono_refl _

/-- Shared argument for the two progression operations; `mark` is the status
written at the current stop (`delivered` or `skipped`). -/
lemma statuses_progress (m : Machine) (mark : StopStatus)
    (hmark : mark = StopStatus.delivered ∨ mark = StopStatus.skipped)
    (hact : m.nav.isActive = true) (hinv : NavInv m) :
    (findNextPendingStop (m.nav.stopStatuses.set m.nav.currentStopIndex mark)
        m.nav.currentStopIndex = none →
      StatusesMono m.nav.stopStatuses
        (m.nav.stopStatuses.set m.nav.currentStopIndex mark)) ∧
    (∀ next, findNextPendingStop (m.nav.stopStatuses.set m.nav.currentStopIndex mark)
        m.nav.currentStopIndex = some next →
      m.nav.stopStatuses[next]? = some StopStatus.pending ∧
      next < m.nav.stopStatuses.length ∧
      m.nav.currentStopIndex < next ∧
      StatusesMono m.nav.stopStatuses
        ((m.nav.stopStatuses.set m.nav.currentStopIndex mark).set next
          StopStatus.current) ∧
      (1 ≤ next ∧
        next < ((m.nav.stopStatuses.set m.nav.currentStopIndex mark).set next
          StopStatus.current).length ∧
        ((m.nav.stopStatuses.set m.nav.currentStopIndex mark).set next
          StopStatus.current)[0]? = some StopStatus.delivered ∧
        ∀ j, j < ((m.nav.stopStatuses.set m.nav.currentStopIndex mark).set next
            StopStatus.current).length →
          (((m.nav.stopStatuses.set m.nav.currentStopIndex mark).set next
            StopStatus.current)[j]? = some StopStatus.current ↔ j = next))) := by
  obtain ⟨hcur1, hcurlt, h0, hiff⟩ := hinv hact
  have hScur : m.nav.stopStatuses[m.nav.currentStopIndex]? = some StopStatus.current :=
    (hiff _ hcurlt).mpr rfl
  constructor
  · intro _
    refine ⟨List.length_set _ _ _, ?_⟩
    intro j a b hja hjb
    by_cases hj : j = m.nav.currentStopIndex
    · subst hj
      rw [hScur] at hja
      injection hja with hja
      rw [List.getElem?_set_self (by omega)] at hjb
      injection hjb with hjb
      subst hja
      subst hjb
      rcases hmark with rfl | rfl
      · exact Or.inr (Or.inr ⟨rfl, Or.inl rfl⟩)
      · exact Or.inr (Or.inr ⟨rfl, Or.inr rfl⟩)
    · rw [List.getElem?_set_ne (fun h => hj h.symm)] at hjb
      rw [hja] at hjb
      injection hjb with hjb
      exact Or.inl hjb
  · intro next hfind
    obtain ⟨hlt, hnextable, _⟩ := findNextPendingStop_some hfind
    have hne : next ≠ m.nav.currentStopIndex := by omega
    have hSnext : m.nav.stopStatuses[next]? =
        (m.nav.stopStatuses.set m.nav.currentStopIndex mark)[next]? :=
      (List.getElem?_set_ne (fun h => hne h.symm)).symm
    have hpend : m.nav.stopStatuses[next]? = some StopStatus.pending := by
      rcases hnextable with h | h
      · rw [hSnext]; exact h
      · exfalso
        rw [← hSnext] at h
        have hnl : next < m.nav.stopStatuses.length :=
          (List.getElem?_eq_some_iff.mp h).1
        exact hne ((hiff next hnl).mp h)
    have hnl : next < m.nav.stopStatuses.length :=
      (List.getElem?_eq_some_iff.mp hpend).1
    have hlen2 : ((m.nav.stopStatuses.set m.nav.currentStopIndex mark).set next
        StopStatus.current).length = m.nav.stopStatuses.length := by
      rw [List.length_set, List.length_set]
    refine ⟨hpend, hnl, hlt, ⟨by rw [hlen2], ?_⟩, ?_⟩
    · intro j a b hja hjb
      by_cases hjn : j = next
      · subst hjn
        rw [hpend] at hja
        injection hja with hja
        rw [List.getElem?_set_self (by rw [List.length_set]; omega)] at hjb
        injection hjb with hjb
        subst hja
        subst hjb
        exact Or.inr (Or.inl ⟨rfl, rfl⟩)
      · rw [List.getElem?_set_ne (fun h => hjn h.symm)] at hjb
        by_cases hjc : j = m.nav.currentStopIndex
        · subst hjc
          rw [hScur] at hja
          injection hja with hja
          rw [List.getElem?_set_self (by omega)] at hjb
          injection hjb with hjb
          subst hja
          subst hjb
          rcases hmark with rfl | rfl
          · exact Or.inr (Or.inr ⟨rfl, Or.inl rfl⟩)
          · exact Or.inr (Or.inr ⟨rfl, Or.inr rfl⟩)
        · rw [List.getElem?_set_ne (fun h => hjc h.symm)] at hjb
          rw [hja] at hjb
          injection hjb with hjb
          exact Or.inl hjb
    · refine ⟨by omega, by rw [hlen2]; omega, ?_, ?_⟩
      · rw [List.getElem?_set_ne (by omega), List.getElem?_set_ne (by omega)]
        exact h0
      · intro j hj
        rw [hlen2] at hj
        by_cases hjn : j = next
        · subst hjn
          rw [List.getElem?_set_self (by rw [List.length_set]; omega)]
          simp
        · rw [List.getElem?_set_ne (fun h => hjn h.symm)]
          by_cases hjc : j = m.nav.currentStopIndex
          · subst hjc
            rw [List.getElem?_set_self (by omega)]
            constructor
            · intro h'
              injection h' with h'
              exfalso
              rcases hmark with rfl | rfl <;> cases h'
            · intro h'
              exact absurd h' hjn
          · rw [List.getElem?_set_ne (fun h => hjc h.symm)]
            rw [hiff j hj]
            constructor
            · intro h'
              exact absurd h' hjc
            · intro h'
              exact absurd h' hjn

lemma NavInv_markDelivered (strip : String → String)
    (optRoute : Option OptimizedRoute) (m : Machine) (hinv : NavInv m) :
    NavInv (markDelivered strip optRoute m).1 ∧
    StatusesMono m.nav.stopStatuses (markDelivered strip optRoute m).1.nav.stopStatuses := by
  cases optRoute with
  | none => exact ⟨hinv, statusesMono_refl _⟩
  | some r =>
    cases hact : m.nav.isActive with
    | false =>
      rw [markDelivered_inactive strip (some r) m hact]
      exact ⟨hinv, statusesMono_refl _⟩
    | true =>
      have hprog := statuses_progress m StopStatus.delivered (Or.inl rfl) hact hinv
      cases hfind : findNextPendingStop
          (m.nav.stopStatuses.set m.nav.currentStopIndex StopStatus.delivered)
          m.nav.currentStopIndex with
      | none =>
        obtain ⟨hs, ha, _, _⟩ := markDelivered_activeNone_fields strip r m hact hfind
        constructor
        · intro h
          rw [ha] at h
          cases h
        · rw [hs]
          exact hprog.1 hfind
      | some next =>
        obtain ⟨hs, ha, hc, _⟩ := markDelivered_activeSome_fields strip r m next hact hfind
        obtain ⟨_, _, _, hmono, hinv'⟩ := hprog.2 next hfind
        constructor
        · intro _
          rw [hs, hc]
          exact hinv'
        · rw [hs]
          exact hmono

lemma NavInv_skipStop (strip : String → String)
    (optRoute : Option OptimizedRoute) (m : Machine) (hinv : NavInv m) :
    NavInv (skipStop strip optRoute m).1 ∧
    StatusesMono m.nav.stopStatuses (skipStop strip optRoute m).1.nav.stopStatuses := by
  cases optRoute with
  | none => exact ⟨hinv, statusesMono_refl _⟩
  | some r =>
    cases hact : m.nav.isActive with
    | false =>
      rw [skipStop_inactive strip (some r) m hact]
      exact ⟨hinv, statusesMono_refl _⟩
    | true =>
      have hprog := statuses_progress m StopStatus.skipped (Or.inr rfl) hact hinv
      cases hfind : findNextPendingStop
          (m.nav.stopStatuses.set m.nav.currentStopIndex StopStatus.skipped)
          m.nav.currentStopIndex with
      | none =>
        obtain ⟨hs, ha, _, _⟩ := skipStop_activeNone_fields strip r m hact hfind
        constructor
        · intro h
          rw [ha] at h
          cases h
        · rw [hs]
          exact hprog.1 hfind
      | some next =>
        obtain ⟨hs, ha, hc, _⟩ := skipStop_activeSome_fields strip r m next hact hfind
        obtain ⟨_, _, _, hmono, hinv'⟩ := hprog.2 next hfind
        constructor
        · intro _
          rw [hs, hc]
          exact hinv'
        · rw [hs]
          exact hmono

/-! ### Concrete navigation fixtures -/

/-- Depot of the concrete runs. -/
def c10Stop0 : DeliveryStop := ⟨"d0", "Depot", some ⟨0, 0⟩, none⟩

/-- First delivery stop of the concrete runs. -/
def c10Stop1 : DeliveryStop := ⟨"d1", "First stop", some ⟨1, 1⟩, some "1023"⟩

/-- Second delivery stop of the concrete runs. -/
def c10Stop2 : DeliveryStop := ⟨"d2", "Second stop", some ⟨2, 2⟩, none⟩

/-- Leg-1 step of the concrete directions. -/
def c10StepA : DStep := ⟨some "Head north", some ("500 m", 500), none⟩

/-- First leg-2 step of the concrete directions. -/
def c10StepB : DStep := ⟨some "Turn left", some ("200 m", 200), some "turn-left"⟩

/-- Second leg-2 step of the concrete directions. -/
def c10StepC : DStep := ⟨some "Arrive", some ("100 m", 100), none⟩

/-- Concrete two-leg directions result: leg 1 has one step, leg 2 has two. -/
def c10Dirs : Directions := ⟨[⟨[⟨[c10StepA]⟩, ⟨[c10StepB, c10StepC]⟩]⟩]⟩

/-- Concrete optimized 3-stop route; the first leg is 1000 m long. -/
def c10Route : OptimizedRoute :=
  { orderedStops := [c10Stop0, c10Stop1, c10Stop2]
    legs := [⟨1, "First stop", "17 min", 1020, "1.0 km", 1000⟩,
             ⟨2, "Second stop", "5 min", 300, "300 m", 300⟩]
    totalDistance := "1.3 km"
    totalDistanceValue := 1300
    totalDuration := "22 min"
    totalDurationValue := 1320
    polyline := "p" }

/-- Concrete two-stop route for the terminal-transition witness. -/
def c9Route : OptimizedRoute :=
  { orderedStops := [c10Stop0, c10Stop1]
    legs := [⟨1, "First stop", "17 min", 1020, "1.0 km", 1000⟩]
    totalDistance := "1.0 km"
    totalDistanceValue := 1000
    totalDuration := "17 min"
    totalDurationValue := 1020
    polyline := "p" }

/-- The machine right after starting navigation on the 3-stop route. -/
def c10Started : Machine :=
  (startNavigation id (some c10Route) true (some c10Dirs) initialMachine).1

/-- The machine right after starting navigation on the 2-stop route. -/
def c9Started : Machine :=
  (startNavigation id (some c9Route) true (some c10Dirs) initialMachine).1

/-! ## Claim theorems: navigation -/

/-- C8: starting navigation on a route with at least 2 ordered stops and a
resolved step list marks stop 0 `delivered`, stop 1 `current` and every later
stop `pending`, sets `currentStopIndex` to 1, and initializes
`distanceToNextStop`/`etaToNextStop` from the first leg's values. -/
theorem claim_C8 (strip : String → String) (route : OptimizedRoute)
    (dirs : Directions) (m : Machine) (h2 : 2 ≤ route.orderedStops.length) :
    (startNavigation strip (some route) true (some dirs) m).1.nav.isActive = true ∧
    (startNavigation strip (some route) true (some dirs) m).1.nav.currentStopIndex = 1 ∧
    (startNavigation strip (some route) true (some dirs) m).1.nav.stopStatuses.length =
      route.orderedStops.length ∧
    (startNavigation strip (some route) true (some dirs) m).1.nav.stopStatuses[0]? =
      some StopStatus.delivered ∧
    (startNavigation strip (some route) true (some dirs) m).1.nav.stopStatuses[1]? =
      some StopStatus.current ∧
    (∀ j, 2 ≤ j → j < route.orderedStops.length →
      (startNavigation strip (some route) true (some dirs) m).1.nav.stopStatuses[j]? =
        some StopStatus.pending) ∧
    (∀ leg, route.legs.head? = some leg →
      (startNavigation strip (some route) true (some dirs) m).1.nav.distanceToNextStop =
        leg.distanceValue ∧
      (startNavigation strip (some route) true (some dirs) m).1.nav.etaToNextStop =
        leg.duration) := by
  obtain ⟨h1, hcur, h3, _, _, _, _, _, h9, _⟩ :=
    startNavigation_fields strip route dirs m h2
  refine ⟨h1, hcur, ?_, ?_, ?_, ?_, h9⟩
  · rw [h3, startStatuses_length]
  · rw [h3, startStatuses_get _ 0 (by omega)]
    rfl
  · rw [h3, startStatuses_get _ 1 (by omega)]
    rfl
  · intro j hj2 hjlt
    rw [h3, startStatuses_get _ j hjlt, if_neg (by omega), if_neg (by omega)]

/-- C8 (witness): on the concrete 3-stop route the statuses are exactly
`[delivered, current, pending]`, the current stop index is 1, and the
distance/ETA fields carry the first leg's values. -/
theorem claim_C8_witness :
    c10Started.nav.stopStatuses[0]? = some StopStatus.delivered ∧
    c10Started.nav.stopStatuses[1]? = some StopStatus.current ∧
    c10Started.nav.stopStatuses[2]? = some StopStatus.pending ∧
    c10Started.nav.stopStatuses.length = 3 ∧
    c10Started.nav.currentStopIndex = 1 ∧
    c10Started.nav.distanceToNextStop = 1000 ∧
    c10Started.nav.etaToNextStop = "17 min" := by
  obtain ⟨_, hcur, hlen, h0, h1, hpend, hleg⟩ :=
    claim_C8 id c10Route c10Dirs initialMachine (by decide)
  obtain ⟨hd, he⟩ := hleg ⟨1, "First stop", "17 min", 1020, "1.0 km", 1000⟩ rfl
  simp only [c10Started]
  exact ⟨h0, h1, hpend 2 (by omega) (by decide), by rw [hlen]; rfl, hcur, hd, he⟩

/-- C9: while the session is inactive, `markDelivered`, `skipStop` and GPS
samples all return the machine unchanged and emit nothing; after the
terminal `markDelivered` transition (no pending stop remains), a subsequent
GPS sample is such a no-op. -/
theorem claim_C9 (strip : String → String) (hav : ℚ → ℚ → ℚ → ℚ → ℚ) :
    (∀ route gps m, m.nav.isActive = false →
      markDelivered strip route m = (m, []) ∧
      skipStop strip route m = (m, []) ∧
      onGpsSample hav route gps m = (m, [])) ∧
    (∀ route m, m.nav.isActive = true →
      findNextPendingStop
        (m.nav.stopStatuses.set m.nav.currentStopIndex StopStatus.delivered)
        m.nav.currentStopIndex = none →
      (markDelivered strip (some route) m).1.nav.isActive = false ∧
      ∀ gps, onGpsSample hav (some route) gps (markDelivered strip (some route) m).1 =
        ((markDelivered strip (some route) m).1, [])) := by
  refine ⟨fun route gps m h =>
    ⟨markDelivered_inactive strip route m h, skipStop_inactive strip route m h,
     onGpsSample_inactive hav route gps m h⟩, ?_⟩
  intro route m hact hfind
  obtain ⟨_, ha, _, _⟩ := markDelivered_activeNone_fields strip route m hact hfind
  exact ⟨ha, fun gps => onGpsSample_inactive hav (some route) gps _ ha⟩

/-- C9 (witness): the inert initial machine ignores all three operations,
and on the 2-stop route the first `markDelivered` is terminal, after which a
GPS sample is a no-op. -/
theorem claim_C9_witness :
    markDelivered id (some c9Route) initialMachine = (initialMachine, []) ∧
    skipStop id (some c9Route) initialMachine = (initialMachine, []) ∧
    onGpsSample (fun _ _ _ _ => 100) (some c9Route) none initialMachine =
      (initialMachine, []) ∧
    (markDelivered id (some c9Route) c9Started).1.nav.isActive = false ∧
    onGpsSample (fun _ _ _ _ => 100) (some c9Route) none
        (markDelivered id (some c9Route) c9Started).1 =
      ((markDelivered id (some c9Route) c9Started).1, []) := by
  obtain ⟨h1, h2, h3⟩ :=
    (claim_C9 id (fun _ _ _ _ => 100)).1 (some c9Route) none initialMachine rfl
  obtain ⟨h4, h5⟩ :=
    (claim_C9 id (fun _ _ _ _ => 100)).2 c9Route c9Started rfl (by decide)
  exact ⟨h1, h2, h3, h4, h5 none⟩

/-- C6: the stop-status invariant of §3.  `startNavigation` establishes it
(and every operation preserves it); while active there is exactly one
`current` stop and stop 0 is `delivered`; `markDelivered`, `skipStop` and
GPS samples move every stop's status only forward through
`pending → current → {delivered, skipped}`; and the stop promoted to
`current` is the first stop with status `pending` or `current` after the
current index in ascending order. -/
theorem claim_C6 (strip : String → String) (hav : ℚ → ℚ → ℚ → ℚ → ℚ) :
    (∀ route dirs m, 2 ≤ route.orderedStops.length →
      NavInv (startNavigation strip (some route) true (some dirs) m).1) ∧
    (∀ optRoute mapsLoaded fetch m, NavInv m →
      NavInv (startNavigation strip optRoute mapsLoaded fetch m).1) ∧
    (∀ optRoute m, NavInv m →
      NavInv (markDelivered strip optRoute m).1 ∧
      StatusesMono m.nav.stopStatuses
        (markDelivered strip optRoute m).1.nav.stopStatuses) ∧
    (∀ optRoute m, NavInv m →
      NavInv (skipStop strip optRoute m).1 ∧
      StatusesMono m.nav.stopStatuses (skipStop strip optRoute m).1.nav.stopStatuses) ∧
    (∀ optRoute gps m, NavInv m →
      NavInv (onGpsSample hav optRoute gps m).1 ∧
      StatusesMono m.nav.stopStatuses
        (onGpsSample hav optRoute gps m).1.nav.stopStatuses) ∧
    (∀ m, m.nav.isActive = true → NavInv m →
      (∃! j : ℕ, m.nav.stopStatuses[j]? = some StopStatus.current) ∧
      m.nav.stopStatuses[0]? = some StopStatus.delivered) ∧
    (∀ route m next, m.nav.isActive = true →
      findNextPendingStop
        (m.nav.stopStatuses.set m.nav.currentStopIndex StopStatus.delivered)
        m.nav.currentStopIndex = some next →
      (markDelivered strip (some route) m).1.nav.currentStopIndex = next ∧
      (markDelivered strip (some route) m).1.nav.stopStatuses[next]? =
        some StopStatus.current) ∧
    (∀ statuses i j, findNextPendingStop statuses i = some j →
      i < j ∧ Nextable statuses[j]? ∧
      ∀ k, i < k → k < j → ¬ Nextable statuses[k]?) := by
  refine ⟨fun route dirs m h2 => NavInv_startNavigation_success strip route dirs m h2,
    fun optRoute mapsLoaded fetch m hinv =>
      NavInv_startNavigation strip optRoute mapsLoaded fetch m hinv,
    fun optRoute m hinv => NavInv_markDelivered strip optRoute m hinv,
    fun optRoute m hinv => NavInv_skipStop strip optRoute m hinv,
    fun optRoute gps m hinv => NavInv_onGpsSample hav optRoute gps m hinv,
    ?_, ?_, fun statuses i j h => findNextPendingStop_some h⟩
  · intro m hact hinv
    obtain ⟨hcur1, hcurlt, h0, hiff⟩ := hinv hact
    refine ⟨⟨m.nav.currentStopIndex, (hiff _ hcurlt).mpr rfl, ?_⟩, h0⟩
    intro j hj
    have hjlt : j < m.nav.stopStatuses.length := (List.getElem?_eq_some_iff.mp hj).1
    exact (hiff j hjlt).mp hj
  · intro route m next hact hfind
    obtain ⟨hs, _, hc, _⟩ := markDelivered_activeSome_fields strip route m next hact hfind
    obtain ⟨_, hnextable, _⟩ := findNextPendingStop_some hfind
    have hnl : next < (m.nav.stopStatuses.set m.nav.currentStopIndex
        StopStatus.delivered).length := by
      rcases hnextable with h | h <;> exact (List.getElem?_eq_some_iff.mp h).1
    refine ⟨hc, ?_⟩
    rw [hs, List.getElem?_set_self (by rw [List.length_set]; rw [List.length_set] at hnl; exact hnl)]

/-- C6 (witness): the invariant machinery exercised on the concrete 3-stop
run — the started machine satisfies the invariant, `markDelivered` preserves
it and moves statuses forward, and the promoted stop is stop 2, the first
pending stop after index 1. -/
theorem claim_C6_witness :
    NavInv c10Started ∧
    (NavInv (markDelivered id (some c10Route) c10Started).1 ∧
      StatusesMono c10Started.nav.stopStatuses
        (markDelivered id (some c10Route) c10Started).1.nav.stopStatuses) ∧
    (markDelivered id (some c10Route) c10Started).1.nav.currentStopIndex = 2 ∧
    (markDelivered id (some c10Route) c10Started).1.nav.stopStatuses[2]? =
      some StopStatus.current := by
  have hstart := (claim_C6 id (fun _ _ _ _ => 100)).1 c10Route c10Dirs initialMachine
    (by decide)
  have hpres := (claim_C6 id (fun _ _ _ _ => 100)).2.2.1 (some c10Route) c10Started hstart
  have hpromote := (claim_C6 id (fun _ _ _ _ => 100)).2.2.2.2.2.2.1 c10Route c10Started 2
    rfl (by decide)
  exact ⟨hstart, hpres, hpromote⟩

/-- The ETA of the update body, in terms of the abstract haversine value. -/
lemma gpsUpdateCore_eta (hav : ℚ → ℚ → ℚ → ℚ → ℚ) (route : OptimizedRoute)
    (gps : GPSPosition) (currentStop : DeliveryStop) (loc : LatLng) (m : Machine) :
    (gpsUpdateCore hav route gps currentStop loc m).1.nav.etaToNextStop =
      formatETA (hav gps.lat gps.lng loc.lat loc.lng / navSpeedMs gps.speed) := by
  simp [gpsUpdateCore]

/-- The GPS effect computes the displayed ETA from
`distance / ((speed/3.6) || 1)`. -/
lemma onGpsSample_eta (hav : ℚ → ℚ → ℚ → ℚ → ℚ) (route : OptimizedRoute)
    (gps : GPSPosition) (m : Machine) (currentStop : DeliveryStop) (loc : LatLng)
    (hr : m.isActiveRef = true) (hact : m.nav.isActive = true)
    (hstop : route.orderedStops[m.nav.currentStopIndex]? = some currentStop)
    (hloc : currentStop.location = some loc) :
    (onGpsSample hav (some route) (some gps) m).1.nav.etaToNextStop =
      formatETA (hav gps.lat gps.lng loc.lat loc.lng / navSpeedMs gps.speed) := by
  have hbr : onGpsSample hav (some route) (some gps) m =
      gpsUpdateCore hav route gps currentStop loc m := by
    simp [onGpsSample, hr, hact, hstop, hloc]
  rw [hbr, gpsUpdateCore_eta]

/-- C2 (counterexample): at 1.8 km/h the effective ETA divisor is 0.5 m/s,
not clamped to 1: `(speed/3.6) || 1` is a zero fallback, not a `max`.  At
100 m from the stop the code's ETA argument is 200 s, whereas
`distance / max(speed_m_s, 1)` would give 100 s. -/
theorem claim_C2_counterexample :
    navSpeedMs (9 / 5) = 1 / 2 ∧
    ¬ 1 ≤ navSpeedMs (9 / 5) ∧
    (100 : ℚ) / navSpeedMs (9 / 5) = 200 ∧
    (100 : ℚ) / max (navSpeedMs (9 / 5)) 1 = 100 := by
  have h : navSpeedMs (9 / 5) = 1 / 2 := by
    rw [navSpeedMs, jsOrQ, if_neg (by norm_num)]
    norm_num
  refine ⟨h, by rw [h]; norm_num, by rw [h]; norm_num, by rw [h]; norm_num⟩

/-- C2 (amended): for every GPS sample processed while navigation is active,
the ETA is computed as `distance / d` where `d = speedKmh/3.6` when that
quotient is nonzero and `d = 1` only when `speedKmh = 0` (a zero fallback,
not a lower clamp).  Consequently `d ≥ 1` holds only for `speedKmh = 0` or
`speedKmh ≥ 3.6`; when `0 < speedKmh < 3.6` the divisor is below 1 m/s. -/
theorem claim_C2 (hav : ℚ → ℚ → ℚ → ℚ → ℚ) :
    (∀ route gps m currentStop loc,
      m.isActiveRef = true → m.nav.isActive = true →
      route.orderedStops[m.nav.currentStopIndex]? = some currentStop →
      currentStop.location = some loc →
      (onGpsSample hav (some route) (some gps) m).1.nav.etaToNextStop =
        formatETA (hav gps.lat gps.lng loc.lat loc.lng / navSpeedMs gps.speed)) ∧
    navSpeedMs 0 = 1 ∧
    (∀ s : ℚ, s ≠ 0 → navSpeedMs s = s / (36 / 10)) ∧
    (∀ s : ℚ, 0 < s → s < 36 / 10 → navSpeedMs s < 1) ∧
    (∀ s : ℚ, 36 / 10 ≤ s → 1 ≤ navSpeedMs s) := by
  have hformula : ∀ s : ℚ, s ≠ 0 → navSpeedMs s = s / (36 / 10) := by
    intro s hs
    rw [navSpeedMs, jsOrQ, if_neg (by positivity)]
  refine ⟨?_, ?_, hformula, ?_, ?_⟩
  · intro route gps m currentStop loc hr hact hstop hloc
    exact onGpsSample_eta hav route gps m currentStop loc hr hact hstop hloc
  · rw [navSpeedMs, jsOrQ, if_pos (by norm_num)]
  · intro s hs0 hs36
    rw [hformula s (by positivity)]
    rw [div_lt_one (by norm_num)]
    exact hs36
  · intro s hs
    by_cases h0 : s = 0
    · subst h0
      norm_num at hs
    · rw [hformula s h0, le_div_iff₀ (by norm_num)]
      linarith

/-- C2 (witness): the amended theorem at concrete inputs — the ETA formula
on the live 3-stop run at 20 km/h, and the divisor characterization at
5 km/h, 1.8 km/h and 3.6 km/h. -/
theorem claim_C2_witness :
    (onGpsSample (fun _ _ _ _ => 100) (some c10Route)
        (some ⟨1, 1, 20, 0, 5, 0⟩) c10Started).1.nav.etaToNextStop =
      formatETA (100 / navSpeedMs 20) ∧
    navSpeedMs 5 = 5 / (36 / 10) ∧
    navSpeedMs (9 / 5) < 1 ∧
    1 ≤ navSpeedMs (36 / 10) :=
  ⟨(claim_C2 (fun _ _ _ _ => 100)).1 c10Route ⟨1, 1, 20, 0, 5, 0⟩ c10Started
      c10Stop1 ⟨1, 1⟩ rfl rfl rfl rfl,
   (claim_C2 (fun _ _ _ _ => 100)).2.2.1 5 (by norm_num),
   (claim_C2 (fun _ _ _ _ => 100)).2.2.2.1 (9 / 5) (by norm_num) (by norm_num),
   (claim_C2 (fun _ _ _ _ => 100)).2.2.2.2 (36 / 10) (by norm_num)⟩

/-! ### The step-list provenance (C10) -/

/-- Indexed decomposition of `flatMap`. -/
lemma flatMap_range_getElem {α β : Type} (l : List α) (g : α → List β) :
    l.flatMap g = (List.range l.length).flatMap
      (fun i => match l[i]? with | some x => g x | none => []) := by
  induction l with
  | nil => rfl
  | cons a t ih =>
    rw [List.length_cons, List.range_succ_eq_map, List.flatMap_cons, List.flatMap_cons,
      List.flatMap_map]
    have h0 : (match (a :: t)[0]? with | some x => g x | none => []) = g a := by
      rw [List.getElem?_cons_zero]
    rw [h0]
    congr 1
    rw [ih]
    have hfun : (fun i : ℕ => match (a :: t)[Nat.succ i]? with | some x => g x | none => []) =
        fun i : ℕ => match t[i]? with | some x => g x | none => [] := by
      funext i
      rw [List.getElem?_cons_succ]
    rw [hfun]

/-- The GPS position of the concrete run: 20 km/h at the point `(1, 1)`. -/
def c10Gps : GPSPosition := ⟨1, 1, 20, 0, 5, 0⟩

/-- The abstract haversine of the concrete run: the driver is always 100 m
from the current stop. -/
def c10Hav : ℚ → ℚ → ℚ → ℚ → ℚ := fun _ _ _ _ => 100

/-- The navigation step announced in the concrete run. -/
def c10NavB : NavigationStep := toNavStep id c10StepB

/-- One GPS sample processed right after starting the concrete 3-stop run. -/
def c10Run : Machine × List NavEvent :=
  onGpsSample c10Hav (some c10Route) (some c10Gps) c10Started

/-- The step heuristic on the concrete sample: 100 m out of 1000 m left,
3 steps loaded — `floor(0.9 · 3 · 0.5) = 1`, so the index advances to 1. -/
lemma stepAdvance_eval : stepAdvance 3 0 100 1000 = 1 := by
  have hden : jsOrQ (1000 : ℚ) (jsOrQ 100 1) = 1000 := by
    rw [jsOrQ, if_neg (by norm_num)]
  have harg : ((1 : ℚ) - 100 / jsOrQ 1000 (jsOrQ 100 1)) * ((3 : ℕ) : ℚ) * (1 / 2) =
      27 / 20 := by
    rw [hden]
    push_cast
    norm_num
  have hfloor : (⌊(27 : ℚ) / 20⌋ : ℤ) = 1 := by
    rw [Int.floor_eq_iff]
    norm_num
  simp only [stepAdvance]
  rw [if_pos (by decide : 0 < 3 ∧ 0 < 3 - 1), harg, hfloor]
  decide

/-- C10: when navigation starts, the active step list is
`extractAllSteps` — the concatenation of the steps of every leg of the whole
route — whereas each promotion to a new current stop (via `markDelivered` or
`skipStop`) replaces it by `extractLegSteps` of the single corresponding
leg.  Consequently, during the first leg the step-advancement heuristic can
advance into and announce instructions belonging to later legs: on the
concrete 3-stop run, one GPS sample taken 100 m from stop 1 announces the
first instruction of leg 2. -/
theorem claim_C10 (strip : String → String) :
    (∀ d : Directions, extractAllSteps strip d =
      (List.range (legCount d)).flatMap fun i => extractLegSteps strip d i) ∧
    (∀ route dirs m, 2 ≤ route.orderedStops.length →
      (startNavigation strip (some route) true (some dirs) m).1.nav.allSteps =
        extractAllSteps strip dirs ∧
      (startNavigation strip (some route) true (some dirs) m).1.stepsRef =
        extractAllSteps strip dirs) ∧
    (∀ route m next dirs, m.nav.isActive = true → m.directionsRef = some dirs →
      findNextPendingStop
        (m.nav.stopStatuses.set m.nav.currentStopIndex StopStatus.delivered)
        m.nav.currentStopIndex = some next →
      (markDelivered strip (some route) m).1.nav.allSteps =
        extractLegSteps strip dirs (next - 1) ∧
      (markDelivered strip (some route) m).1.stepsRef =
        extractLegSteps strip dirs (next - 1)) ∧
    (∀ route m next dirs, m.nav.isActive = true → m.directionsRef = some dirs →
      findNextPendingStop
        (m.nav.stopStatuses.set m.nav.currentStopIndex StopStatus.skipped)
        m.nav.currentStopIndex = some next →
      (skipStop strip (some route) m).1.nav.allSteps =
        extractLegSteps strip dirs (next - 1) ∧
      (skipStop strip (some route) m).1.stepsRef =
        extractLegSteps strip dirs (next - 1)) ∧
    (c10Run.2 = [NavEvent.stepAnnounced c10NavB] ∧
      c10Run.1.nav.currentStopIndex = 1 ∧
      c10Run.1.nav.currentStepIndex = 1 ∧
      c10NavB ∈ extractLegSteps id c10Dirs 1 ∧
      c10NavB ∉ extractLegSteps id c10Dirs 0) := by
  refine ⟨?_, ?_, ?_, ?_, ?_⟩
  · intro d
    cases hh : d.routes.head? with
    | none => simp [extractAllSteps, legCount, hh]
    | some route =>
      simp only [extractAllSteps, legCount, hh]
      rw [flatMap_range_getElem route.legs fun leg => leg.steps.map (toNavStep strip)]
      congr 1
      funext i
      cases hleg : route.legs[i]? <;> simp [extractLegSteps, hh, hleg]
  · intro route dirs m h2
    obtain ⟨_, _, _, hall, hsteps, _⟩ := startNavigation_fields strip route dirs m h2
    exact ⟨hall, hsteps⟩
  · intro route m next dirs hact hd hfind
    constructor <;> simp [markDelivered, hact, hd, hfind]
  · intro route m next dirs hact hd hfind
    constructor <;> simp [skipStop, hact, hd, hfind]
  · have hflds := startNavigation_fields id c10Route c10Dirs initialMachine (by decide)
    have hdist : c10Started.nav.distanceToNextStop = 1000 := by
      have := (hflds.2.2.2.2.2.2.2.2.1 ⟨1, "First stop", "17 min", 1020, "1.0 km", 1000⟩
        rfl).1
      simp only [c10Started]
      exact this
    have hbr : c10Run = gpsUpdateCore c10Hav c10Route c10Gps c10Stop1 ⟨1, 1⟩ c10Started :=
      rfl
    have hidx : stepAdvance c10Started.stepsRef.length c10Started.nav.currentStepIndex
        (c10Hav c10Gps.lat c10Gps.lng 1 1) c10Started.nav.distanceToNextStop = 1 := by
      rw [hdist]
      exact stepAdvance_eval
    have hstep1 : c10Started.stepsRef[1]? = some c10NavB := rfl
    have hlast : c10Started.lastSpokenStep = -1 := rfl
    have hnear : decide ((c10Hav c10Gps.lat c10Gps.lng 1 1 : ℚ) < 50) = false := by
      rw [decide_eq_false_iff_not]
      show ¬ ((100 : ℚ) < 50)
      norm_num
    refine ⟨?_, ?_, ?_, List.mem_cons_self _ _, by decide⟩
    · rw [hbr]
      simp only [gpsUpdateCore, hidx, hstep1, hlast, hnear]
      rw [if_pos (by decide : ((1 : ℕ) : ℤ) ≠ -1)]
      simp
    · rw [hbr]
      simp only [gpsUpdateCore]
      rfl
    · rw [hbr]
      simp only [gpsUpdateCore, hidx]

/-- C10 (witness): the provenance conjuncts exercised on the concrete run —
the started machine's step list is the whole-route concatenation, and the
promotion after `markDelivered` replaces it by leg 2's steps only. -/
theorem claim_C10_witness :
    extractAllSteps id c10Dirs =
      (List.range (legCount c10Dirs)).flatMap (fun i => extractLegSteps id c10Dirs i) ∧
    c10Started.nav.allSteps = extractAllSteps id c10Dirs ∧
    (markDelivered id (some c10Route) c10Started).1.nav.allSteps =
      extractLegSteps id c10Dirs 1 :=
  ⟨(claim_C10 id).1 c10Dirs,
   ((claim_C10 id).2.1 c10Route c10Dirs initialMachine (by decide)).1,
   ((claim_C10 id).2.2.1 c10Route c10Started 2 c10Dirs rfl rfl (by decide)).1⟩

end DelRoute
